import Mathlib

/-!
Shallow embedding of the Fool's Gambit rules engine
(packages/game-core/src: engine.ts, rules.ts, rng/xorshift32.ts,
content.ts, majors.ts) into Lean 4, together with theorems settling the
specification claims.

Modelling conventions:
* JavaScript 32-bit unsigned arithmetic is `Nat` with explicit `% 2^32`.
* JavaScript `number` game quantities (hp, gold, fate, card values,
  damage) are `Int`; list indices and counters are `Nat`.
* The deterministic string card ids `suit_rank` (for example `cups_7`)
  are in bijection with pairs (suit, rank); `CardId` is that pair.
* TypeScript `throw` is `Except.error`; the in-place mutation of the
  cloned state is explicit state passing.
* The process-wide loaded content bundle is passed as an explicit
  `LoadedContent` argument.
-/

namespace FG

/-! ## RNG: rng/xorshift32.ts -/

/-- TS `Xorshift32.nextUint32`: `x ^= x<<13; x ^= x>>>17; x ^= x<<5`,
each `<<` truncated to 32 bits (`>>> 0`), returning the new state. -/
def nextUint32 (state : Nat) : Nat :=
  let x := state % 2 ^ 32
  let x := x ^^^ ((x <<< 13) % 2 ^ 32)
  let x := x ^^^ (x >>> 17)
  let x := x ^^^ ((x <<< 5) % 2 ^ 32)
  x % 2 ^ 32

/-- The list of the first `n` outputs of the generator started at `seed`. -/
def rngOutputs (seed : Nat) : Nat → List Nat
  | 0 => []
  | n + 1 => nextUint32 seed :: rngOutputs (nextUint32 seed) n

/-! ## Card model: types.ts and the registry built in engine.ts -/

inductive MinorSuit where
  | pentacles | cups | wands | swords
deriving DecidableEq, Repr

inductive Orientation where
  | upright | reversed
deriving DecidableEq, Repr

inductive CourtFace where
  | page | knight | queen | king
deriving DecidableEq, Repr

inductive MinorRank where
  | number (value : Int)
  | ace
  | court (face : CourtFace)
deriving DecidableEq, Repr

/-- The deterministic string id of a minor card encodes exactly its suit
and rank (`cups_7`, `swords_queen`, ...), so a card id is that pair. -/
structure CardId where
  suit : MinorSuit
  rank : MinorRank
deriving DecidableEq, Repr

structure MinorCard where
  id : CardId
  suit : MinorSuit
  rank : MinorRank
  orientation : Orientation
deriving DecidableEq, Repr

inductive MajorId where
  | magician | high_priestess | empress | emperor | hierophant | lovers
  | chariot | strength | hermit | wheel | justice | hanged_man | death
  | temperance | devil | tower | star | moon | sun | judgement | world
deriving DecidableEq, Repr

/-! ## Content model: content.ts -/

inductive SelectorKind where
  | PLAYER_CHOICE | RANDOM | LEFTMOST | HIGHEST_VALUE
  | IF_ENEMY_PRESENT_PLAYER_CHOICE | IF_ANY_REVERSED_PLAYER_CHOICE
deriving DecidableEq, Repr

/-- TS `Selector`; the optional `tieBreak` field is never read by the engine
and is omitted. -/
structure Selector where
  kind : SelectorKind
deriving DecidableEq, Repr

/-- TS `BargainOption`: `some`/`none` track JavaScript field presence
(`"payGold" in o` tests presence, not truthiness). -/
structure BargainOption where
  payGold : Option Int
  takeDamage : Option Int
  heal : Option Int
  gainGold : Option Int
deriving DecidableEq, Repr

inductive PredicateKind where
  | ROOM_HAS_ENEMY | ROOM_HAS_ANY_EFFECTIVE_REVERSED | PLAYER_GOLD_AT_LEAST
deriving DecidableEq, Repr

structure Predicate where
  kind : PredicateKind
  value : Option Int
deriving DecidableEq, Repr

inductive EffectType where
  | NOOP | SEQUENCE | CHOICE | CONDITIONAL | REROLL_REVEALED
  | EXILE_REPLACE_REVEALED | CLEANSE_REVEALED | PEEK_TOP_N | REORDER_TOP_N
  | REORDER_ROOM_BY_VALUE | REORDER_ROOM_ARBITRARY | BARGAIN
  | DISABLE_FATE_ACTION | SET_WEAPON_RESTRICTION_MODE | SET_ORDER_CONSTRAINT
  | SET_FLOOR_PARAM | FORCED_EXILE_FIRST_RESOLVE_ATTEMPT
deriving DecidableEq, Repr

inductive FateAction where
  | CLEANSE | REROLL
deriving DecidableEq, Repr

inductive EffectScope where
  | THIS_ROOM | THIS_FLOOR
deriving DecidableEq, Repr

inductive WeaponRestrictionMode where
  | DEFAULT | STRICT
deriving DecidableEq, Repr

/-- The `orderConstraint` string enum of content effect nodes
(`ASC_VALUE`, unlike the run-state kind `ASC_ORDERING_VALUE`). -/
inductive OrderConstraintName where
  | NONE | LEFT_TO_RIGHT | RIGHT_TO_LEFT | SUIT_ORDER | ASC_VALUE
deriving DecidableEq, Repr

/-- TS `EffectNode`. A `ChoiceOption {labelKey, effect}` is the pair
`(labelKey, effect)`. The reserved-word fields `if`/`then`/`else` are
`pif`/`pthen`/`pelse`. `Option` marks the optional fields. -/
inductive EffectNode where
  | mk
      (type : EffectType)
      (effects : Option (List EffectNode))
      (promptKey : Option String)
      (options : Option (List (String × EffectNode)))
      (pif : Option Predicate)
      (pthen : Option EffectNode)
      (pelse : Option EffectNode)
      (selector : Option Selector)
      (n : Option Nat)
      (canReorder : Option Bool)
      (fateAction : Option FateAction)
      (scope : Option EffectScope)
      (weaponRestrictionMode : Option WeaponRestrictionMode)
      (orderConstraint : Option OrderConstraintName)
      (requiresChooseCarriedFirst : Option Bool)
      (paramKey : Option String)
      (paramValue : Option String)
      (bargainOptions : Option (List BargainOption))

def EffectNode.type : EffectNode → EffectType
  | ⟨t, _, _, _, _, _, _, _, _, _, _, _, _, _, _, _, _, _⟩ => t

def EffectNode.effects : EffectNode → Option (List EffectNode)
  | ⟨_, e, _, _, _, _, _, _, _, _, _, _, _, _, _, _, _, _⟩ => e

def EffectNode.promptKey : EffectNode → Option String
  | ⟨_, _, p, _, _, _, _, _, _, _, _, _, _, _, _, _, _, _⟩ => p

def EffectNode.options : EffectNode → Option (List (String × EffectNode))
  | ⟨_, _, _, o, _, _, _, _, _, _, _, _, _, _, _, _, _, _⟩ => o

def EffectNode.pif : EffectNode → Option Predicate
  | ⟨_, _, _, _, i, _, _, _, _, _, _, _, _, _, _, _, _, _⟩ => i

def EffectNode.pthen : EffectNode → Option EffectNode
  | ⟨_, _, _, _, _, t, _, _, _, _, _, _, _, _, _, _, _, _⟩ => t

def EffectNode.pelse : EffectNode → Option EffectNode
  | ⟨_, _, _, _, _, _, e, _, _, _, _, _, _, _, _, _, _, _⟩ => e

def EffectNode.selector : EffectNode → Option Selector
  | ⟨_, _, _, _, _, _, _, s, _, _, _, _, _, _, _, _, _, _⟩ => s

def EffectNode.n : EffectNode → Option Nat
  | ⟨_, _, _, _, _, _, _, _, n, _, _, _, _, _, _, _, _, _⟩ => n

def EffectNode.canReorder : EffectNode → Option Bool
  | ⟨_, _, _, _, _, _, _, _, _, c, _, _, _, _, _, _, _, _⟩ => c

def EffectNode.fateAction : EffectNode → Option FateAction
  | ⟨_, _, _, _, _, _, _, _, _, _, f, _, _, _, _, _, _, _⟩ => f

def EffectNode.scope : EffectNode → Option EffectScope
  | ⟨_, _, _, _, _, _, _, _, _, _, _, s, _, _, _, _, _, _⟩ => s

def EffectNode.weaponRestrictionMode : EffectNode → Option WeaponRestrictionMode
  | ⟨_, _, _, _, _, _, _, _, _, _, _, _, w, _, _, _, _, _⟩ => w

def EffectNode.orderConstraint : EffectNode → Option OrderConstraintName
  | ⟨_, _, _, _, _, _, _, _, _, _, _, _, _, o, _, _, _, _⟩ => o

def EffectNode.requiresChooseCarriedFirst : EffectNode → Option Bool
  | ⟨_, _, _, _, _, _, _, _, _, _, _, _, _, _, r, _, _, _⟩ => r

def EffectNode.paramKey : EffectNode → Option String
  | ⟨_, _, _, _, _, _, _, _, _, _, _, _, _, _, _, k, _, _⟩ => k

def EffectNode.paramValue : EffectNode → Option String
  | ⟨_, _, _, _, _, _, _, _, _, _, _, _, _, _, _, _, v, _⟩ => v

def EffectNode.bargainOptions : EffectNode → Option (List BargainOption)
  | ⟨_, _, _, _, _, _, _, _, _, _, _, _, _, _, _, _, _, b⟩ => b

/-- A node with every optional field absent except the given `type`. -/
def EffectNode.simple (t : EffectType) : EffectNode :=
  ⟨t, none, none, none, none, none, none, none, none, none, none, none,
   none, none, none, none, none, none⟩

inductive HookId where
  | FLOOR_START | ROOM_REVEALED | ORDER_CONSTRAINT
  | BEFORE_FIRST_RESOLVE_ATTEMPT | AFTER_FIRST_RESOLUTION
deriving DecidableEq, Repr

structure MajorUI where
  nameKey : String
  shadowSummaryKey : String
  giftSummaryKey : String

structure MajorShadow where
  trigger : HookId
  effect : EffectNode

structure MajorGift where
  effect : EffectNode

structure MajorDefinition where
  id : MajorId
  ui : MajorUI
  shadow : MajorShadow
  gift : MajorGift

structure MajorsContent where
  contentVersion : String
  majors : List MajorDefinition

/-- TS `StringsBundle = Record<string, string>`. -/
abbrev StringsBundle := List (String × String)

structure ContentBundle where
  majors : MajorsContent
  strings : StringsBundle

structure LoadedContent where
  majors : MajorsContent
  strings : StringsBundle
  majorById : MajorId → Option MajorDefinition

/-- TS `loadContent` (content.ts). The structural asserts on non-object
bundles are enforced by the Lean types; the remaining checks are the
nonempty `contentVersion` string and the major count of exactly 21.
`majorById` is insertion with later duplicates overriding earlier ones. -/
def loadContent (bundle : ContentBundle) : Except String LoadedContent :=
  if bundle.majors.contentVersion.length = 0 then
    .error "loadContent: majors.contentVersion required"
  else if bundle.majors.majors.length ≠ 21 then
    .error "loadContent: majors.majors must be length 21"
  else
    .ok { majors := bundle.majors, strings := bundle.strings,
          majorById := fun id =>
            (bundle.majors.majors.filter (fun m => m.id = id)).getLast? }

/-! ## Run state: types.ts -/

inductive PhaseId where
  | RunInit | FloorStart | RoomReveal | RoomChoice | EngageSetup
  | PreResolveWindow | ResolveCommit | ResolveExecute | RoomEnd
  | BossStart | BossRoomLoop | FloorVictory | RunVictory | RunDefeat
deriving DecidableEq, Repr

structure EquipmentWeapon where
  cardId : CardId
  value : Int
  lastHelpedDefeatValue : Option Int
  tuckedEnemyIds : List CardId
deriving DecidableEq, Repr

structure EquipmentItem where
  cardId : CardId
  value : Int
deriving DecidableEq, Repr

structure PlayerBuffs where
  cheatWeaponNextEnemyFight : Bool
  cheatWeaponThisRoom : Bool
deriving DecidableEq, Repr

structure PlayerState where
  hp : Int
  maxHp : Int
  gold : Int
  fate : Int
  weapon : Option EquipmentWeapon
  armor : Option EquipmentItem
  spell : Option EquipmentItem
  buffs : PlayerBuffs
deriving DecidableEq, Repr

/-- TS `DeckState`; `cards.minors : Record<CardId, MinorCard>` is an
association list in insertion order (the `Object.keys` order that
`startFloor` relies on). -/
structure DeckState where
  minors : List (CardId × MinorCard)
  minorDeck : List CardId
  majorDeck : List MajorId
deriving DecidableEq, Repr

inductive ChariotDirection where
  | LEFT_TO_RIGHT | RIGHT_TO_LEFT
deriving DecidableEq, Repr

structure FloorState where
  floorNumber : Int
  activeMajorId : MajorId
  engagedRoomsCompleted : Int
  floorDiscard : List CardId
  bossMode : Bool
  bossRoomsRequired : Int
  bossRoomsCompleted : Int
  bossDeck : Option (List CardId)
  chariotDirection : Option ChariotDirection
deriving DecidableEq, Repr

structure RoomState where
  slots : List (Option CardId)
  resolvedMask : List Bool
  carriedIndex : Option Nat
  carryChoiceIndex : Option Nat
  leapUsed : Bool
  healingUsedThisRoom : Bool
  pendingCleanses : List Bool
  disabledFateActionsThisRoom : List FateAction
  hangedManTriggeredThisRoom : Bool
deriving DecidableEq, Repr

structure MajorsState where
  claimed : List MajorId
  attuned : List MajorId
  spentThisFloor : List MajorId
deriving DecidableEq, Repr

inductive OrderConstraintKind where
  | NONE | LEFT_TO_RIGHT | RIGHT_TO_LEFT | SUIT_ORDER | ASC_ORDERING_VALUE
deriving DecidableEq, Repr

structure OrderConstraintState where
  kind : OrderConstraintKind
  requiresChooseCarriedFirst : Bool
  scopeMajorId : Option MajorId
deriving DecidableEq, Repr

structure RulesState where
  weaponRestrictionMode : WeaponRestrictionMode
  orderConstraint : OrderConstraintState
deriving DecidableEq, Repr

inductive BargainKind where
  | pay | takeDamage
deriving DecidableEq, Repr

/-- The prompt payload stored in the debug sidecar by majors.ts. -/
inductive MajorPrompt where
  | CHOICE (majorId : MajorId) (promptKey : String) (optionIds : List String)
      (optionEffects : List EffectNode)
  | BARGAIN (majorId : MajorId) (promptKey : String)
      (options : List BargainKind) (bargainOptions : List BargainOption)
  | REORDER_TOP3 (majorId : MajorId)
  | REORDER_ROOM4 (majorId : MajorId)
  | SELECT_TARGET (majorId : MajorId) (effect : EffectNode)
      (candidates : List Nat)

inductive PendingPrompt where
  | ACE (cardId : CardId)
  | ENEMY_FIGHT (cardId : CardId)
  | SWORDS_AMBUSH_BLOCK (cardId : CardId)
  | CUPS_8_10 (cardId : CardId)
  | MAJOR_CHOICE (majorId : MajorId) (promptKey : String)
      (optionIds : List String)
  | MAJOR_BARGAIN (majorId : MajorId) (promptKey : String)
      (options : List BargainKind)
  | MAJOR_REORDER_TOP3 (majorId : MajorId)
  | MAJOR_REORDER_ROOM4 (majorId : MajorId)
deriving DecidableEq, Repr

/-- TS `state.debug?.pendingPrompt?.kind?.startsWith("MAJOR_")`. -/
def PendingPrompt.isMajorKind : PendingPrompt → Bool
  | .MAJOR_CHOICE .. | .MAJOR_BARGAIN .. | .MAJOR_REORDER_TOP3 _
  | .MAJOR_REORDER_ROOM4 _ => true
  | _ => false

structure PendingResolution where
  slotIndex : Nat
  cardId : CardId
deriving DecidableEq, Repr

/-- The optional `debug` sidecar. The TypeScript object is created lazily
(`state.debug ??= {}`) and fields are read with optional chaining, so an
always-present record whose fields default to `none`/`false` is
observationally identical. `floorStart*` are the `(dbg as any)`
bookkeeping fields written by `startFloor`/`autoAdvance`. -/
structure DebugState where
  pendingResolution : Option PendingResolution
  pendingPrompt : Option PendingPrompt
  pendingMajorPrompt : Option MajorPrompt
  floorStartForFloorNumber : Option Int
  floorStartAttunementChosen : Bool
  floorStartAppliedFloorStartHook : Bool
  floorStartAppliedOrderConstraintHook : Bool

def DebugState.empty : DebugState :=
  { pendingResolution := none, pendingPrompt := none,
    pendingMajorPrompt := none, floorStartForFloorNumber := none,
    floorStartAttunementChosen := false,
    floorStartAppliedFloorStartHook := false,
    floorStartAppliedOrderConstraintHook := false }

/-- TS `RunState`. `rng : {algo: "xorshift32", state}` is the `rngState`
integer; `fateCap` is the literal 10 carried as a field. -/
structure RunState where
  phase : PhaseId
  runLengthTarget : Int
  fateCap : Int
  rngState : Nat
  player : PlayerState
  decks : DeckState
  floor : FloorState
  room : RoomState
  majors : MajorsState
  lastRoomWasFlee : Bool
  rules : RulesState
  debug : DebugState

inductive EnemyMode where
  | barehand | weapon
deriving DecidableEq, Repr

inductive CupsChoice where
  | heal | equipArmor
deriving DecidableEq, Repr

inductive LegalAction where
  | CHOOSE_FLEE
  | CHOOSE_ENGAGE
  | SELECT_ATTUNEMENT (majorIds : List MajorId)
  | SELECT_CARRIED_CARD (slotIndex : Nat)
  | USE_LEAP_OF_FAITH (slotIndex : Nat)
  | SPEND_FATE_REROLL (slotIndex : Nat)
  | SPEND_FATE_CLEANSE (slotIndex : Nat)
  | SPEND_FATE_EXILE_REPLACE (slotIndex : Nat)
  | SPEND_FATE_CHEAT_WEAPON
  | USE_SPELL_CLEANSE (slotIndex : Nat)
  | USE_SPELL_REROLL (slotIndex : Nat)
  | USE_MAJOR_GIFT (majorId : MajorId) (optionId : Option String)
      (slotIndex : Option Nat)
  | COMMIT_RESOLVE (slotIndex : Nat)
  | ACE_CHOICE (optionId : String) (slotIndex : Option Nat)
  | ENEMY_FIGHT_CHOICE (enemyMode : EnemyMode)
  | SWORDS_AMBUSH_BLOCK_CHOICE (block : Bool)
  | CUPS_8_10_CHOICE (cupsChoice : CupsChoice)
  | BARGAIN_CHOICE (bargainChoice : BargainKind)
  | REORDER_TOP3 (order : List Nat)
  | REORDER_ROOM4 (order : List Nat)
deriving DecidableEq, Repr

inductive EquipmentKind where
  | weapon | armor | spell
deriving DecidableEq, Repr

inductive GameEvent where
  | ROOM_REVEALED (slots : List (Option CardId))
  | PEEK_TOP_N (n : Nat) (cardIds : List CardId)
  | PLAYER_HP_CHANGED (delta : Int) (hp : Int)
  | PLAYER_GOLD_CHANGED (delta : Int) (gold : Int)
  | PLAYER_FATE_CHANGED (delta : Int) (fate : Int)
  | CARD_BOTTOMED (cardId : CardId)
  | CARD_EXILED (cardId : CardId)
  | CARD_RESOLVED (cardId : CardId) (slotIndex : Nat)
  | EQUIP_WEAPON (cardId : CardId) (value : Int)
  | EQUIP_ARMOR (cardId : CardId) (value : Int)
  | EQUIP_SPELL (cardId : CardId) (value : Int)
  | DISCARD_EQUIPMENT (kind : EquipmentKind) (cardId : CardId)
deriving DecidableEq, Repr

/-- TS `slots[i]` for the 4-slot tuple (out-of-range reads are `undefined`,
i.e. `none`). -/
def RoomState.slotAt (room : RoomState) (i : Nat) : Option CardId :=
  (room.slots.get? i).join

def RoomState.cleanseAt (room : RoomState) (i : Nat) : Bool :=
  (room.pendingCleanses.get? i).getD false

def RoomState.resolvedAt (room : RoomState) (i : Nat) : Bool :=
  (room.resolvedMask.get? i).getD false

/-- TS `getCard` / `state.decks.cards.minors[id]` (engine.ts): registry
lookup. The `createRun` registry is total over every id that can appear
in a container, so the fallback card (an upright card of the id's own
suit and rank) is unreachable in engine-built states. -/
def getCard (state : RunState) (cardId : CardId) : MinorCard :=
  ((state.decks.minors.find? (fun p => p.1 == cardId)).map Prod.snd).getD
    { id := cardId, suit := cardId.suit, rank := cardId.rank,
      orientation := .upright }

/-! ## Rules helpers: rules.ts -/

def isNumbered : MinorRank → Bool
  | .number _ => true
  | _ => false

def isCourt (card : MinorCard) : Bool :=
  match card.rank with
  | .court _ => true
  | _ => false

/-- TS `computeMinorNumericValue`; in TypeScript the argument is
type-narrowed to a numbered rank, so the other branches are dead. -/
def computeMinorNumericValue : MinorRank → Int
  | .number v => v
  | _ => 0

/-- TS `computeEnemyValue`; the non-court branch throws in TypeScript and is
unreachable at every call site (all guarded by `isCourt`). -/
def computeEnemyValue (card : MinorCard) (effectiveOrientation : Orientation) :
    Int :=
  match card.rank with
  | .court face =>
      let base : Int :=
        match face with
        | .page => 11
        | .knight => 12
        | .queen => 13
        | .king => 14
      if effectiveOrientation = .reversed then base + 2 else base
  | _ => 0

def computeEffectiveOrientation (state : RunState) (slotIndex : Nat)
    (card : MinorCard) : Orientation :=
  let eff := card.orientation
  let eff := if state.floor.bossMode && isNumbered card.rank then
    Orientation.reversed else eff
  let eff := if state.room.cleanseAt slotIndex then Orientation.upright
    else eff
  eff

/-- TS `applyArmorIfAny`: returns the reduced damage, discarding the armor
to the floor discard (with event) whenever it reduced anything. -/
def applyArmorIfAny (state : RunState) (amount : Int)
    (events : List GameEvent) : Int × RunState × List GameEvent :=
  if amount ≤ 0 then (0, state, events)
  else
    match state.player.armor with
    | none => (amount, state, events)
    | some armor =>
        let reduced := max 0 (amount - armor.value)
        if reduced ≠ amount then
          (reduced,
           { state with
              player := { state.player with armor := none },
              floor := { state.floor with
                floorDiscard := state.floor.floorDiscard ++ [armor.cardId] } },
           events ++ [.DISCARD_EQUIPMENT .armor armor.cardId])
        else (reduced, state, events)

/-! ## Engine helpers: engine.ts -/

/-- TS `fisherYatesShuffle` inner loop, indices `k+1 = i` running from
`length-1` down to `1`, drawing `j = nextUint32() % (i+1)`. -/
def listSwap {α : Type} (l : List α) (i j : Nat) : List α :=
  match l.get? i, l.get? j with
  | some x, some y => (l.set i y).set j x
  | _, _ => l

def fisherYatesGo {α : Type} : List α → Nat → Nat → List α × Nat
  | l, rng, 0 => (l, rng)
  | l, rng, k + 1 =>
      let r := nextUint32 rng
      fisherYatesGo (listSwap l (k + 1) (r % (k + 2))) r k

def fisherYatesShuffle {α : Type} (l : List α) (rng : Nat) :
    List α × Nat :=
  fisherYatesGo l rng (l.length - 1)

def computeBossRoomsRequired (floorNumber : Int) : Int :=
  if floorNumber ≤ 7 then 2
  else if floorNumber ≤ 14 then 3
  else 4

def clamp (n mn mx : Int) : Int :=
  max mn (min mx n)

def addFate (state : RunState) (delta : Int) (events : List GameEvent) :
    RunState × List GameEvent :=
  let next := clamp (state.player.fate + delta) 0 state.fateCap
  let actual := next - state.player.fate
  if actual ≠ 0 then
    ({ state with player := { state.player with fate := next } },
     events ++ [.PLAYER_FATE_CHANGED actual next])
  else (state, events)

def addGold (state : RunState) (delta : Int) (events : List GameEvent) :
    RunState × List GameEvent :=
  let next := clamp (state.player.gold + delta) 0 9999
  let actual := next - state.player.gold
  if actual ≠ 0 then
    ({ state with player := { state.player with gold := next } },
     events ++ [.PLAYER_GOLD_CHANGED actual next])
  else (state, events)

def applyDamage (state : RunState) (amount : Int)
    (events : List GameEvent) : RunState × List GameEvent :=
  match applyArmorIfAny state amount events with
  | (reduced, state, events) =>
      if reduced ≤ 0 then (state, events)
      else
        let next := clamp (state.player.hp - reduced) 0 999
        let actual := next - state.player.hp
        if actual ≠ 0 then
          let state :=
            { state with player := { state.player with hp := next } }
          let events := events ++ [.PLAYER_HP_CHANGED actual next]
          let state :=
            if state.player.hp ≤ 0 then { state with phase := .RunDefeat }
            else state
          (state, events)
        else (state, events)

def applyHeal (state : RunState) (amount : Int)
    (events : List GameEvent) : RunState × List GameEvent :=
  if amount ≤ 0 then (state, events)
  else if state.room.healingUsedThisRoom then (state, events)
  else
    let next := clamp (state.player.hp + amount) 0 state.player.maxHp
    let actual := next - state.player.hp
    if actual ≤ 0 then (state, events)
    else
      ({ state with
          player := { state.player with hp := next },
          room := { state.room with healingUsedThisRoom := true } },
       events ++ [.PLAYER_HP_CHANGED actual next])

def drawFromMinorDeck (state : RunState) :
    Except String (CardId × RunState) :=
  if state.floor.bossMode then
    match state.floor.bossDeck with
    | some (c :: rest) =>
        .ok (c, { state with
          floor := { state.floor with bossDeck := some rest } })
    | _ => .error "Minor deck is empty"
  else
    match state.decks.minorDeck with
    | c :: rest =>
        .ok (c, { state with
          decks := { state.decks with minorDeck := rest } })
    | [] => .error "Minor deck is empty"

def bottomToActiveDeck (state : RunState) (cardId : CardId)
    (events : List GameEvent) :
    Except String (RunState × List GameEvent) :=
  if state.floor.bossMode then
    match state.floor.bossDeck with
    | none => .error "bossDeck missing in bossMode"
    | some d =>
        .ok ({ state with
                floor := { state.floor with bossDeck := some (d ++ [cardId]) } },
             events ++ [.CARD_BOTTOMED cardId])
  else
    .ok ({ state with
            decks := { state.decks with
              minorDeck := state.decks.minorDeck ++ [cardId] } },
         events ++ [.CARD_BOTTOMED cardId])

def exileToFloorDiscard (state : RunState) (cardId : CardId)
    (events : List GameEvent) : RunState × List GameEvent :=
  ({ state with floor := { state.floor with
      floorDiscard := state.floor.floorDiscard ++ [cardId] } },
   events ++ [.CARD_EXILED cardId])

/-! ## Card registry and initial room: engine.ts -/

def suitsBuildOrder : List MinorSuit :=
  [.pentacles, .cups, .wands, .swords]

def numberValues : List Int := [2, 3, 4, 5, 6, 7, 8, 9, 10]

def courtFaces : List CourtFace := [.page, .knight, .queen, .king]

/-- The card ids of one suit in `buildMinorCards` insertion order:
numbered 2..10, then the ace, then the court faces. -/
def suitRankKeys (suit : MinorSuit) : List CardId :=
  (numberValues.map fun v => ⟨suit, .number v⟩) ++ [⟨suit, .ace⟩] ++
    (courtFaces.map fun f => ⟨suit, .court f⟩)

/-- All 56 minor card ids in `buildMinorCards` insertion order (also the
`Object.keys` order of the registry used by `startFloor`). -/
def allCardIds : List CardId :=
  (suitsBuildOrder.map suitRankKeys).flatten

def buildInitialRoom (carried : Option (Nat × CardId)) : RoomState :=
  let slots : List (Option CardId) := [none, none, none, none]
  let slots :=
    match carried with
    | some (i, c) => slots.set i (some c)
    | none => slots
  { slots := slots,
    resolvedMask := [false, false, false, false],
    carriedIndex := carried.map Prod.fst,
    carryChoiceIndex := none,
    leapUsed := false,
    healingUsedThisRoom := false,
    pendingCleanses := [false, false, false, false],
    disabledFateActionsThisRoom := [],
    hangedManTriggeredThisRoom := false }

/-! ## Majors helpers: majors.ts -/

/-- TS `getMajor` + field access in `getFloorMajorShadow`; a missing major
definition is the TypeScript `TypeError` on `major.shadow`. -/
def getFloorMajorShadow (content : LoadedContent) (state : RunState)
    (hook : HookId) : Except String (Option EffectNode) :=
  match content.majorById state.floor.activeMajorId with
  | none => .error "TypeError: cannot read shadow of undefined major"
  | some major =>
      .ok (if major.shadow.trigger = hook then some major.shadow.effect
           else none)

def roomHasEnemy (state : RunState) : Bool :=
  state.room.slots.any fun id =>
    match id with
    | none => false
    | some id => isCourt (getCard state id)

def roomHasAnyEffectiveReversed (state : RunState) : Bool :=
  (List.range state.room.slots.length).any fun idx =>
    match state.room.slotAt idx with
    | none => false
    | some id =>
        computeEffectiveOrientation state idx (getCard state id) =
          .reversed

def computeOrderingValue (state : RunState) (slotIndex : Nat)
    (card : MinorCard) : Int :=
  let eff := computeEffectiveOrientation state slotIndex card
  match card.rank with
  | .ace => 1
  | .number _ => computeMinorNumericValue card.rank
  | .court _ => computeEnemyValue card eff

def occupiedSlotIndices (state : RunState) : List Nat :=
  ([0, 1, 2, 3] : List Nat).filter fun i => (state.room.slotAt i).isSome

/-- TS `selectorCandidates` (majors.ts). -/
def selectorCandidates (state : RunState) (selector : Selector) :
    List Nat :=
  let occupied := occupiedSlotIndices state
  match selector.kind with
  | .LEFTMOST =>
      match occupied with
      | [] => []
      | x :: xs => [xs.foldl min x]
  | .IF_ENEMY_PRESENT_PLAYER_CHOICE =>
      if roomHasEnemy state then occupied else []
  | .IF_ANY_REVERSED_PLAYER_CHOICE =>
      occupied.filter fun i =>
        match state.room.slotAt i with
        | none => false
        | some id =>
            computeEffectiveOrientation state i (getCard state id) =
              .reversed
  | .HIGHEST_VALUE =>
      let scored := occupied.map fun i =>
        (i, computeOrderingValue state i
              (getCard state ((state.room.slotAt i).getD
                ⟨.pentacles, .ace⟩)))
      let sorted := scored.mergeSort fun a b =>
        b.2 < a.2 || (b.2 = a.2 && a.1 ≤ b.1)
      match sorted with
      | [] => []
      | top :: _ =>
          (sorted.filter fun x => x.2 = top.2).map Prod.fst
  | _ => occupied

/-- TS `beginMajorEffectPrompt` (majors.ts). Truthiness of `promptKey` is
presence of a nonempty string; an options array is truthy even when
empty. -/
def beginMajorEffectPrompt (state : RunState) (majorId : MajorId)
    (effect : EffectNode) : Except String RunState :=
  if state.debug.pendingPrompt.isSome then
    .error "Cannot begin major prompt while another prompt is pending"
  else
    match effect.type with
    | .CHOICE =>
        match effect.promptKey, effect.options with
        | some pk, some opts =>
            if pk.length = 0 then
              .error "CHOICE requires promptKey and options"
            else
              .ok { state with debug := { state.debug with
                pendingPrompt := some (.MAJOR_CHOICE majorId pk
                  (opts.map Prod.fst)),
                pendingMajorPrompt := some (.CHOICE majorId pk
                  (opts.map Prod.fst) (opts.map Prod.snd)) } }
        | _, _ => .error "CHOICE requires promptKey and options"
    | .BARGAIN =>
        match effect.promptKey, effect.options, effect.bargainOptions with
        | some pk, some opts, some bos =>
            if pk.length = 0 then
              .error "BARGAIN requires promptKey/options/bargainOptions"
            else if opts.length ≠ bos.length then
              .error "BARGAIN options and bargainOptions length mismatch"
            else
              let simplified : List BargainKind := bos.map fun o =>
                if o.payGold.isSome then .pay else .takeDamage
              .ok { state with debug := { state.debug with
                pendingPrompt := some (.MAJOR_BARGAIN majorId pk simplified),
                pendingMajorPrompt := some (.BARGAIN majorId pk simplified
                  bos) } }
        | _, _, _ => .error "BARGAIN requires promptKey/options/bargainOptions"
    | .REORDER_TOP_N =>
        .ok { state with debug := { state.debug with
          pendingPrompt := some (.MAJOR_REORDER_TOP3 majorId),
          pendingMajorPrompt := some (.REORDER_TOP3 majorId) } }
    | .REORDER_ROOM_ARBITRARY =>
        .ok { state with debug := { state.debug with
          pendingPrompt := some (.MAJOR_REORDER_ROOM4 majorId),
          pendingMajorPrompt := some (.REORDER_ROOM4 majorId) } }
    | .REROLL_REVEALED | .EXILE_REPLACE_REVEALED | .CLEANSE_REVEALED =>
        match effect.selector with
        | none => .error "selector required"
        | some sel =>
            let candidates := selectorCandidates state sel
            if candidates.isEmpty then .ok state
            else if sel.kind = .RANDOM then .ok state
            else if sel.kind = .HIGHEST_VALUE && candidates.length = 1 then
              .ok state
            else
              .ok { state with debug := { state.debug with
                pendingPrompt := some (.MAJOR_CHOICE majorId
                  "major.selectTarget" (candidates.map toString)),
                pendingMajorPrompt := some (.SELECT_TARGET majorId effect
                  candidates) } }
    | _ => .error "Unsupported major prompt type"

def getMajorPrompt (state : RunState) : Option MajorPrompt :=
  state.debug.pendingMajorPrompt

def clearMajorPrompt (state : RunState) : RunState :=
  { state with debug := { state.debug with
      pendingMajorPrompt := none, pendingPrompt := none } }

/-- The `permutations` helper of majors.ts, in its enumeration order. -/
def permutationsTSGo {α : Type} : Nat → List α → List (List α)
  | 0, l => [l]
  | fuel + 1, l =>
      if l.length ≤ 1 then [l]
      else
        ((List.range l.length).map fun i =>
          let rest := l.take i ++ l.drop (i + 1)
          (permutationsTSGo fuel rest).map fun tail =>
            (l.get? i).toList ++ tail).flatten

def permutationsTS {α : Type} (l : List α) : List (List α) :=
  permutationsTSGo l.length l

/-- The first-occurrence dedup over `bargainChoice` at the end of the
BARGAIN branch of `getMajorPromptLegalActions`. -/
def dedupBargainKinds : List BargainKind → List BargainKind → List BargainKind
  | _, [] => []
  | seen, k :: rest =>
      if seen.contains k then dedupBargainKinds seen rest
      else k :: dedupBargainKinds (seen ++ [k]) rest

/-- TS `getMajorPromptLegalActions` (majors.ts). -/
def getMajorPromptLegalActions (state : RunState) : List LegalAction :=
  match getMajorPrompt state with
  | none => []
  | some (.CHOICE majorId _ optionIds _) =>
      optionIds.map fun optionId =>
        .USE_MAJOR_GIFT majorId (some optionId) none
  | some (.BARGAIN _ _ options bargainOptions) =>
      let kept := (options.zip bargainOptions).filterMap fun (kind, opt) =>
        match kind with
        | .pay =>
            if state.player.gold < opt.payGold.getD 0 then none
            else some BargainKind.pay
        | .takeDamage => some BargainKind.takeDamage
      (dedupBargainKinds [] kept).map fun k => .BARGAIN_CHOICE k
  | some (.REORDER_TOP3 _) =>
      (permutationsTS ([0, 1, 2] : List Nat)).map fun order =>
        .REORDER_TOP3 order
  | some (.REORDER_ROOM4 _) =>
      (permutationsTS ([0, 1, 2, 3] : List Nat)).map fun order =>
        .REORDER_ROOM4 order
  | some (.SELECT_TARGET majorId _ candidates) =>
      candidates.map fun slotIndex =>
        .USE_MAJOR_GIFT majorId none (some slotIndex)

/-! ## Major-effect interpreter: engine.ts -/

/-- TS `applyMajorEffectToSlot` (engine.ts). -/
def applyMajorEffectToSlot (state : RunState) (effect : EffectNode)
    (slotIndex : Nat) (events : List GameEvent) :
    Except String (RunState × List GameEvent) :=
  match state.room.slotAt slotIndex with
  | none => .ok (state, events)
  | some cardId =>
      match effect.type with
      | .CLEANSE_REVEALED =>
          let card := getCard state cardId
          if computeEffectiveOrientation state slotIndex card ≠ .reversed
          then .ok (state, events)
          else
            .ok ({ state with room := { state.room with
                    pendingCleanses :=
                      state.room.pendingCleanses.set slotIndex true } },
                 events)
      | .REROLL_REVEALED => do
          let (state, events) ← bottomToActiveDeck state cardId events
          let state := { state with room := { state.room with
            pendingCleanses :=
              state.room.pendingCleanses.set slotIndex false } }
          let (drawn, state) ← drawFromMinorDeck state
          .ok ({ state with room := { state.room with
                  slots := state.room.slots.set slotIndex (some drawn) } },
               events)
      | .EXILE_REPLACE_REVEALED => do
          let (state, events) := exileToFloorDiscard state cardId events
          let state := { state with room := { state.room with
            pendingCleanses :=
              state.room.pendingCleanses.set slotIndex false } }
          let (drawn, state) ← drawFromMinorDeck state
          .ok ({ state with room := { state.room with
                  slots := state.room.slots.set slotIndex (some drawn) } },
               events)
      | _ => .ok (state, events)

/-- The candidate sets computed inline in the selector branch of the
engine's `applyMajorEffect`. -/
def engineEffectiveReversedSlots (state : RunState) : List Nat :=
  (occupiedSlotIndices state).filter fun i =>
    match state.room.slotAt i with
    | none => false
    | some id =>
        computeEffectiveOrientation state i (getCard state id) =
          .reversed

mutual

/-- TS `applyMajorEffect` (engine.ts). -/
def applyMajorEffect (state : RunState) (majorId : MajorId)
    (effect : EffectNode) (events : List GameEvent) :
    Except String (RunState × List GameEvent) :=
  if state.debug.pendingPrompt.isSome then .ok (state, events)
  else
    match effect with
    | ⟨ty, effects, _, _, pif, pthen, pelse, selector, n, canReorder,
       fateAction, scope, wrm, oc, rccf, pk, pv, _⟩ =>
      match ty with
      | .NOOP => .ok (state, events)
      | .SEQUENCE =>
          match effects with
          | some es => applyMajorEffectSeq state majorId es events
          | none => .ok (state, events)
      | .CONDITIONAL =>
          match pif, pthen, pelse with
          | some pred, some thenE, some elseE =>
              let ok : Bool :=
                match pred.kind with
                | .ROOM_HAS_ENEMY =>
                    state.room.slots.any fun id =>
                      match id with
                      | none => false
                      | some id => isCourt (getCard state id)
                | .ROOM_HAS_ANY_EFFECTIVE_REVERSED =>
                    (List.range state.room.slots.length).any fun idx =>
                      match state.room.slotAt idx with
                      | none => false
                      | some id =>
                          computeEffectiveOrientation state idx
                            (getCard state id) = .reversed
                | .PLAYER_GOLD_AT_LEAST =>
                    decide (state.player.gold ≥ pred.value.getD 0)
              if ok then applyMajorEffect state majorId thenE events
              else applyMajorEffect state majorId elseE events
          | _, _, _ => .error "CONDITIONAL requires if/then/else"
      | .CHOICE => do
          let state ← beginMajorEffectPrompt state majorId effect
          .ok (state, events)
      | .BARGAIN => do
          let state ← beginMajorEffectPrompt state majorId effect
          .ok (state, events)
      | .REORDER_TOP_N => do
          let state ← beginMajorEffectPrompt state majorId effect
          .ok (state, events)
      | .REORDER_ROOM_ARBITRARY => do
          let state ← beginMajorEffectPrompt state majorId effect
          .ok (state, events)
      | .PEEK_TOP_N =>
          let deck :=
            if state.floor.bossMode then state.floor.bossDeck
            else some state.decks.minorDeck
          let nv := n.getD 3
          let top := (deck.getD []).take nv
          let events := events ++ [.PEEK_TOP_N nv top]
          if canReorder.getD false then
            .ok ({ state with debug := { state.debug with
                    pendingPrompt := some (.MAJOR_REORDER_TOP3 majorId),
                    pendingMajorPrompt := some (.REORDER_TOP3 majorId) } },
                 events)
          else .ok (state, events)
      | .REORDER_ROOM_BY_VALUE =>
          let prevCarriedId :=
            match state.room.carriedIndex with
            | none => none
            | some ci => state.room.slotAt ci
          let prevCarryChoiceId :=
            match state.room.carryChoiceIndex with
            | none => none
            | some ci => state.room.slotAt ci
          let scored := ([0, 1, 2, 3] : List Nat).map fun idx =>
            match state.room.slotAt idx with
            | none => (idx, (-1 : Int))
            | some id =>
                let card := getCard state id
                let eff := computeEffectiveOrientation state idx card
                let v : Int :=
                  match card.rank with
                  | .ace => 1
                  | .number _ => computeMinorNumericValue card.rank
                  | .court _ => computeEnemyValue card eff
                (idx, v)
          let order := (scored.mergeSort fun a b =>
            a.2 < b.2 || (a.2 = b.2 && a.1 ≤ b.1)).map Prod.fst
          let state := { state with room := { state.room with
            slots := order.map fun i => state.room.slotAt i,
            pendingCleanses := order.map fun i => state.room.cleanseAt i,
            resolvedMask := order.map fun i => state.room.resolvedAt i } }
          let state :=
            match prevCarriedId with
            | none => state
            | some cid =>
                { state with room := { state.room with
                    carriedIndex :=
                      state.room.slots.findIdx? (· == some cid) } }
          let state :=
            match prevCarryChoiceId with
            | none => state
            | some cid =>
                { state with room := { state.room with
                    carryChoiceIndex :=
                      state.room.slots.findIdx? (· == some cid) } }
          .ok (state, events)
      | .DISABLE_FATE_ACTION =>
          match scope, fateAction with
          | some .THIS_ROOM, some fa =>
              if state.room.disabledFateActionsThisRoom.contains fa then
                .ok (state, events)
              else
                .ok ({ state with room := { state.room with
                        disabledFateActionsThisRoom :=
                          state.room.disabledFateActionsThisRoom ++ [fa] } },
                     events)
          | _, _ => .ok (state, events)
      | .SET_WEAPON_RESTRICTION_MODE =>
          match scope, wrm with
          | some .THIS_FLOOR, some mode =>
              .ok ({ state with rules := { state.rules with
                      weaponRestrictionMode := mode } }, events)
          | _, _ => .ok (state, events)
      | .SET_ORDER_CONSTRAINT =>
          match scope, oc with
          | some .THIS_FLOOR, some name =>
              let kind : OrderConstraintKind :=
                match name with
                | .ASC_VALUE => .ASC_ORDERING_VALUE
                | .LEFT_TO_RIGHT => .LEFT_TO_RIGHT
                | .RIGHT_TO_LEFT => .RIGHT_TO_LEFT
                | .SUIT_ORDER => .SUIT_ORDER
                | .NONE => .NONE
              .ok ({ state with rules := { state.rules with
                      orderConstraint :=
                        { kind := kind,
                          requiresChooseCarriedFirst := rccf.getD false,
                          scopeMajorId := some state.floor.activeMajorId } } },
                   events)
          | _, _ => .ok (state, events)
      | .SET_FLOOR_PARAM =>
          match scope, pk with
          | some .THIS_FLOOR, some key =>
              if key.length = 0 then .ok (state, events)
              else if key = "cheatWeapon" then
                .ok ({ state with player := { state.player with
                        buffs := { state.player.buffs with
                          cheatWeaponNextEnemyFight := true } } }, events)
              else if key = "chariotDirection" then
                match pv with
                | some "LEFT_TO_RIGHT" =>
                    .ok ({ state with floor := { state.floor with
                            chariotDirection := some .LEFT_TO_RIGHT } },
                         events)
                | some "RIGHT_TO_LEFT" =>
                    .ok ({ state with floor := { state.floor with
                            chariotDirection := some .RIGHT_TO_LEFT } },
                         events)
                | _ => .error "Invalid chariotDirection paramValue"
              else .ok (state, events)
          | _, _ => .ok (state, events)
      | .FORCED_EXILE_FIRST_RESOLVE_ATTEMPT => .ok (state, events)
      | .REROLL_REVEALED | .EXILE_REPLACE_REVEALED | .CLEANSE_REVEALED =>
          match selector with
          | none => .error "effect requires selector"
          | some sel =>
              let occupied := occupiedSlotIndices state
              let effectiveReversed := engineEffectiveReversedSlots state
              let hasEnemy := occupied.any fun i =>
                match state.room.slotAt i with
                | none => false
                | some id => isCourt (getCard state id)
              let candidates :=
                if ty = .CLEANSE_REVEALED then effectiveReversed
                else occupied
              let candidates :=
                if sel.kind = .IF_ENEMY_PRESENT_PLAYER_CHOICE then
                  (if hasEnemy then candidates else [])
                else candidates
              let candidates :=
                if sel.kind = .IF_ANY_REVERSED_PLAYER_CHOICE then
                  effectiveReversed
                else candidates
              if candidates.isEmpty then .ok (state, events)
              else
                let choosePlayer :
                    List Nat → Except String (RunState × List GameEvent) :=
                  fun cands =>
                    match cands with
                    | [c] => applyMajorEffectToSlot state effect c events
                    | _ =>
                        .ok ({ state with debug := { state.debug with
                                pendingPrompt := some (.MAJOR_CHOICE majorId
                                  "major.selectTarget"
                                  (cands.map toString)),
                                pendingMajorPrompt := some (.SELECT_TARGET
                                  majorId effect cands) } },
                             events)
                match sel.kind with
                | .PLAYER_CHOICE => choosePlayer candidates
                | .IF_ENEMY_PRESENT_PLAYER_CHOICE => choosePlayer candidates
                | .IF_ANY_REVERSED_PLAYER_CHOICE => choosePlayer candidates
                | .LEFTMOST =>
                    match candidates with
                    | [] => .ok (state, events)
                    | x :: xs =>
                        applyMajorEffectToSlot state effect (xs.foldl min x)
                          events
                | .RANDOM =>
                    let r := nextUint32 state.rngState
                    let state := { state with rngState := r }
                    match candidates.get? (r % candidates.length) with
                    | none => .ok (state, events)
                    | some slotIndex =>
                        applyMajorEffectToSlot state effect slotIndex events
                | .HIGHEST_VALUE =>
                    let scored := candidates.map fun i =>
                      match state.room.slotAt i with
                      | none => (i, (0 : Int))
                      | some id =>
                          let card := getCard state id
                          let v : Int :=
                            match card.rank with
                            | .ace => 1
                            | .number _ => computeMinorNumericValue card.rank
                            | .court _ =>
                                computeEnemyValue card
                                  (computeEffectiveOrientation state i card)
                          (i, v)
                    let sorted := scored.mergeSort fun a b =>
                      b.2 < a.2 || (b.2 = a.2 && a.1 ≤ b.1)
                    match sorted with
                    | [] => .ok (state, events)
                    | top :: _ =>
                        choosePlayer
                          ((sorted.filter fun x => x.2 = top.2).map Prod.fst)

/-- The `SEQUENCE` loop of `applyMajorEffect`, stopping after a child
parks a pending prompt. -/
def applyMajorEffectSeq (state : RunState) (majorId : MajorId)
    (effects : List EffectNode) (events : List GameEvent) :
    Except String (RunState × List GameEvent) :=
  match effects with
  | [] => .ok (state, events)
  | e :: rest => do
      let (state, events) ← applyMajorEffect state majorId e events
      if state.debug.pendingPrompt.isSome then .ok (state, events)
      else applyMajorEffectSeq state majorId rest events

end

/-! ## Resolution pipeline: engine.ts -/

/-- The `for i in 0..3` draw loop of `fillRoomToFour`: draw into every
empty slot in index order. -/
def fillSlots (state : RunState) : List Nat → Except String RunState
  | [] => .ok state
  | i :: rest =>
      if (state.room.slotAt i).isNone then do
        let (c, state) ← drawFromMinorDeck state
        fillSlots { state with room := { state.room with
          slots := state.room.slots.set i (some c) } } rest
      else fillSlots state rest

/-- TS `fillRoomToFour`: draw into every empty slot, enter `RoomChoice`,
emit `ROOM_REVEALED`, then apply the `ROOM_REVEALED` shadow. -/
def fillRoomToFour (content : LoadedContent) (state : RunState)
    (events : List GameEvent) :
    Except String (RunState × List GameEvent) := do
  let state ← fillSlots state [0, 1, 2, 3]
  let state := { state with phase := .RoomChoice }
  let events := events ++ [.ROOM_REVEALED state.room.slots]
  let shadow ← getFloorMajorShadow content state .ROOM_REVEALED
  match shadow with
  | some eff => applyMajorEffect state state.floor.activeMajorId eff events
  | none => .ok (state, events)

/-- TS `startFloor`: rebuild the minor deck from all 56 ids minus the
equipped ids (registry insertion order), shuffle with the engine RNG,
reset the floor and room, and stamp the floor-start debug flags. -/
def startFloor (state : RunState) : RunState :=
  let excluded : List CardId :=
    (state.player.weapon.map (·.cardId)).toList ++
    (state.player.armor.map (·.cardId)).toList ++
    (state.player.spell.map (·.cardId)).toList
  let deck := (state.decks.minors.map Prod.fst).filter fun id =>
    ¬ excluded.contains id
  let (deck, rng) := fisherYatesShuffle deck state.rngState
  { state with
    rngState := rng,
    decks := { state.decks with minorDeck := deck },
    floor := { state.floor with
      floorDiscard := [],
      bossMode := false,
      bossDeck := none,
      engagedRoomsCompleted := 0,
      bossRoomsCompleted := 0,
      bossRoomsRequired := computeBossRoomsRequired state.floor.floorNumber,
      chariotDirection := none },
    room := buildInitialRoom none,
    rules := { weaponRestrictionMode := .DEFAULT,
               orderConstraint :=
                 { kind := .NONE,
                   requiresChooseCarriedFirst := false,
                   scopeMajorId := none } },
    debug := { state.debug with
      floorStartForFloorNumber := some state.floor.floorNumber,
      floorStartAttunementChosen := false,
      floorStartAppliedFloorStartHook := false,
      floorStartAppliedOrderConstraintHook := false } }

def resolvedCount (state : RunState) : Nat :=
  state.room.resolvedMask.count true

def canUseWeaponAgainstEnemy (state : RunState) (enemyValue : Int) :
    Bool :=
  match state.player.weapon with
  | none => false
  | some weapon =>
      if state.player.buffs.cheatWeaponNextEnemyFight ||
         state.player.buffs.cheatWeaponThisRoom then true
      else
        match weapon.lastHelpedDefeatValue with
        | none => true
        | some lastValue =>
            if state.rules.weaponRestrictionMode = .STRICT then
              decide (enemyValue < lastValue)
            else decide (enemyValue ≤ lastValue)

def clearPendingResolution (state : RunState) : RunState :=
  { state with debug := { state.debug with pendingResolution := none } }

/-- The tail of TS `completeResolvedCard` (engine.ts), from the
`clearPendingResolution` line on, factored out verbatim. -/
def completeAfterFate (content : LoadedContent) (state : RunState)
    (events : List GameEvent) :
    Except String (RunState × List GameEvent) := do
  let state := clearPendingResolution state
  if state.player.hp ≤ 0 then
    .ok ({ state with phase := .RunDefeat }, events)
  else
    let state :=
      if resolvedCount state ≥ 3 then { state with phase := .RoomEnd }
      else { state with phase := .PreResolveWindow }
    let state :=
      if state.phase = .RoomEnd then
        if state.floor.bossMode then
          { state with floor := { state.floor with
              bossRoomsCompleted := state.floor.bossRoomsCompleted + 1 } }
        else
          { state with floor := { state.floor with
              engagedRoomsCompleted :=
                state.floor.engagedRoomsCompleted + 1 } }
      else state
    if resolvedCount state = 1 then
      let shadow ← getFloorMajorShadow content state .AFTER_FIRST_RESOLUTION
      match shadow with
      | some eff =>
          applyMajorEffect state state.floor.activeMajorId eff events
      | none => .ok (state, events)
    else .ok (state, events)

/-- TS `completeResolvedCard` (engine.ts): mark the slot resolved and
empty it, optionally discard the card to the floor, emit the event,
grant Fate when the effective orientation is reversed, then run the
factored-out tail. -/
def completeResolvedCard (content : LoadedContent) (state : RunState)
    (events : List GameEvent) (slotIndex : Nat) (cardId : CardId)
    (effectiveOrientation : Orientation) (discardToFloor : Bool) :
    Except String (RunState × List GameEvent) :=
  let state := { state with room := { state.room with
    resolvedMask := state.room.resolvedMask.set slotIndex true,
    slots := state.room.slots.set slotIndex none,
    pendingCleanses := state.room.pendingCleanses.set slotIndex false } }
  let state :=
    if discardToFloor then
      { state with floor := { state.floor with
          floorDiscard := state.floor.floorDiscard ++ [cardId] } }
    else state
  let events := events ++ [.CARD_RESOLVED cardId slotIndex]
  let (state, events) :=
    if effectiveOrientation = .reversed then addFate state 1 events
    else (state, events)
  completeAfterFate content state events

/-- TS `resolvePendingNoChoice` (engine.ts): returns whether the pending
resolution progressed without a player choice. -/
def resolvePendingNoChoice (content : LoadedContent) (state : RunState)
    (events : List GameEvent) :
    Except String (Bool × RunState × List GameEvent) := do
  match state.debug.pendingResolution with
  | none => .ok (false, state, events)
  | some pending =>
      let slotIndex := pending.slotIndex
      match state.room.slotAt slotIndex with
      | none => .error "Pending resolution card mismatch"
      | some cardId =>
          if cardId ≠ pending.cardId then
            .error "Pending resolution card mismatch"
          else
            let card := getCard state cardId
            let effective :=
              computeEffectiveOrientation state slotIndex card
            match card.rank with
            | .ace => .ok (false, state, events)
            | .court _ =>
                let enemyVal := computeEnemyValue card effective
                let canWeapon :=
                  if state.player.weapon.isSome then
                    canUseWeaponAgainstEnemy state enemyVal
                  else false
                if canWeapon then .ok (false, state, events)
                else do
                  let (state, events) := applyDamage state enemyVal events
                  let (state, events) ← completeResolvedCard content state
                    events slotIndex cardId effective true
                  .ok (true, state, events)
            | .number _ =>
                let v := computeMinorNumericValue card.rank
                if card.suit = .cups && effective = .upright &&
                   decide (v ≥ 8) then
                  .ok (false, state, events)
                else if card.suit = .swords && effective = .reversed &&
                   state.player.weapon.isSome then
                  .ok (false, state, events)
                else if card.suit = .pentacles then do
                  let (state, events) :=
                    if effective = .upright then addGold state v events
                    else
                      let lose := min state.player.gold v
                      let (state, events) := addGold state (-lose) events
                      let remainder := v - lose
                      if remainder > 0 then
                        applyDamage state remainder events
                      else (state, events)
                  let (state, events) ← completeResolvedCard content state
                    events slotIndex cardId effective true
                  .ok (true, state, events)
                else if card.suit = .cups then do
                  let (state, events) :=
                    if effective = .upright then applyHeal state v events
                    else
                      let prevArmor := state.player.armor
                      let state := { state with
                        player := { state.player with armor := none } }
                      let (state, events) := applyDamage state v events
                      ({ state with
                          player := { state.player with armor := prevArmor } },
                       events)
                  let (state, events) ← completeResolvedCard content state
                    events slotIndex cardId effective true
                  .ok (true, state, events)
                else if card.suit = .wands then do
                  if effective = .upright then
                    let state := { state with player := { state.player with
                      spell := some { cardId := cardId, value := v } } }
                    let events := events ++ [.EQUIP_SPELL cardId v]
                    let (state, events) ← completeResolvedCard content
                      state events slotIndex cardId effective false
                    .ok (true, state, events)
                  else do
                    let (state, events) :=
                      match state.player.spell with
                      | some spell =>
                          let state := { state with
                            player := { state.player with spell := none } }
                          let (state, events) :=
                            exileToFloorDiscard state spell.cardId events
                          (state,
                           events ++
                             [GameEvent.DISCARD_EQUIPMENT
                               EquipmentKind.spell spell.cardId])
                      | none => applyDamage state 2 events
                    let (state, events) ← completeResolvedCard content
                      state events slotIndex cardId effective true
                    .ok (true, state, events)
                else if card.suit = .swords then do
                  if effective = .upright then
                    let (state, events) :=
                      match state.player.weapon with
                      | some prev =>
                          let (state, events) :=
                            exileToFloorDiscard state prev.cardId events
                          (state,
                           events ++
                             [GameEvent.DISCARD_EQUIPMENT
                               EquipmentKind.weapon prev.cardId])
                      | none => (state, events)
                    let newWeapon : EquipmentWeapon :=
                      { cardId := cardId, value := v,
                        lastHelpedDefeatValue := none,
                        tuckedEnemyIds := [] }
                    let state := { state with player := { state.player with
                      weapon := some newWeapon } }
                    let events := events ++ [.EQUIP_WEAPON cardId v]
                    let (state, events) ← completeResolvedCard content
                      state events slotIndex cardId effective false
                    .ok (true, state, events)
                  else do
                    let (state, events) := applyDamage state v events
                    let (state, events) ← completeResolvedCard content
                      state events slotIndex cardId effective true
                    .ok (true, state, events)
                else .error "Unhandled suit"

/-- The claim's "upright suit effect" for a numbered minor, written from
the spec's suit-effect descriptions: high Cups owes a player choice;
Pentacles gains the value in gold; Cups heals the value; Wands equips
the spell (replacing any previous spell); Swords equips the weapon
(exiling any previous weapon); resolution then completes with effective
orientation upright. -/
def uprightNumberedResolution (content : LoadedContent) (state : RunState)
    (events : List GameEvent) (slotIndex : Nat) (cardId : CardId) :
    Except String (Bool × RunState × List GameEvent) := do
  let card := getCard state cardId
  let v := computeMinorNumericValue card.rank
  if card.suit = .cups && decide (v ≥ 8) then
    .ok (false, state, events)
  else if card.suit = .pentacles then do
    let (state, events) := addGold state v events
    let (state, events) ← completeResolvedCard content state events
      slotIndex cardId .upright true
    .ok (true, state, events)
  else if card.suit = .cups then do
    let (state, events) := applyHeal state v events
    let (state, events) ← completeResolvedCard content state events
      slotIndex cardId .upright true
    .ok (true, state, events)
  else if card.suit = .wands then do
    let state := { state with player := { state.player with
      spell := some { cardId := cardId, value := v } } }
    let events := events ++ [.EQUIP_SPELL cardId v]
    let (state, events) ← completeResolvedCard content state events
      slotIndex cardId .upright false
    .ok (true, state, events)
  else if card.suit = .swords then do
    let (state, events) :=
      match state.player.weapon with
      | some prev =>
          let (state, events) :=
            exileToFloorDiscard state prev.cardId events
          (state,
           events ++
             [GameEvent.DISCARD_EQUIPMENT EquipmentKind.weapon
               prev.cardId])
      | none => (state, events)
    let newWeapon : EquipmentWeapon :=
      { cardId := cardId, value := v,
        lastHelpedDefeatValue := none, tuckedEnemyIds := [] }
    let state := { state with player := { state.player with
      weapon := some newWeapon } }
    let events := events ++ [.EQUIP_WEAPON cardId v]
    let (state, events) ← completeResolvedCard content state events
      slotIndex cardId .upright false
    .ok (true, state, events)
  else .error "Unhandled suit"

/-- TS `computeAllowedCommitSlots` (engine.ts). -/
def computeAllowedCommitSlots (state : RunState) : List Nat :=
  let occupied := ([0, 1, 2, 3] : List Nat).filter fun i =>
    (state.room.slotAt i).isSome && !(state.room.resolvedAt i)
  if occupied.isEmpty then []
  else
    let carryChoiceIndex := state.room.carryChoiceIndex
    let allowed :=
      match carryChoiceIndex with
      | none => occupied
      | some c => occupied.filter fun i => i ≠ c
    let constraint := state.rules.orderConstraint.kind
    let requiresChooseCarriedFirst :=
      state.rules.orderConstraint.requiresChooseCarriedFirst
    if requiresChooseCarriedFirst && carryChoiceIndex.isNone then []
    else if constraint = .NONE then allowed
    else
      let nonCarried := allowed
      if nonCarried.isEmpty then []
      else if constraint = .LEFT_TO_RIGHT then
        match nonCarried with
        | [] => []
        | x :: xs => [xs.foldl min x]
      else if constraint = .RIGHT_TO_LEFT then
        match nonCarried with
        | [] => []
        | x :: xs => [xs.foldl max x]
      else if constraint = .SUIT_ORDER then
        let suitOrder : MinorSuit → Int := fun s =>
          match s with
          | .cups => 0
          | .pentacles => 1
          | .swords => 2
          | .wands => 3
        let sorted := (nonCarried.map fun i =>
          (i, suitOrder (getCard state
            ((state.room.slotAt i).getD ⟨.pentacles, .ace⟩)).suit)).mergeSort
          fun a b => a.2 < b.2 || (a.2 = b.2 && a.1 ≤ b.1)
        match sorted with
        | [] => []
        | top :: _ => [top.1]
      else
        let sorted := (nonCarried.map fun i =>
          let card := getCard state
            ((state.room.slotAt i).getD ⟨.pentacles, .ace⟩)
          let eff := computeEffectiveOrientation state i card
          let orderingValue : Int :=
            match card.rank with
            | .court _ => computeEnemyValue card eff
            | .ace => 1
            | .number _ => computeMinorNumericValue card.rank
          (i, orderingValue)).mergeSort
          fun a b => a.2 < b.2 || (a.2 = b.2 && a.1 ≤ b.1)
        match sorted with
        | [] => []
        | top :: _ => [top.1]

/-! ## Automatic advance and run creation: engine.ts -/

def ALL_MAJORS : List MajorId :=
  [.magician, .high_priestess, .empress, .emperor, .hierophant, .lovers,
   .chariot, .strength, .hermit, .wheel, .justice, .hanged_man, .death,
   .temperance, .devil, .tower, .star, .moon, .sun, .judgement, .world]

/-- TS `autoAdvance` (engine.ts): the `while (true)` loop, modelled with a
fuel counter; `break` is returning the current state, `continue` is the
recursive call. The fuel given at every entry point is far larger than
any number of iterations an actual run performs. -/
def autoAdvance (content : LoadedContent) :
    Nat → RunState → List GameEvent →
    Except String (RunState × List GameEvent)
  | 0, state, events => .ok (state, events)
  | fuel + 1, state, events =>
    match state.phase with
    | .RunInit =>
        autoAdvance content fuel { state with phase := .FloorStart } events
    | .FloorStart => do
        let state :=
          if state.debug.floorStartForFloorNumber ≠
             some state.floor.floorNumber then startFloor state
          else state
        if state.debug.pendingPrompt.isSome then .ok (state, events)
        else if !state.debug.floorStartAttunementChosen then
          .ok (state, events)
        else do
          let (state, events) ←
            if !state.debug.floorStartAppliedFloorStartHook then do
              let state := { state with debug := { state.debug with
                floorStartAppliedFloorStartHook := true } }
              let shadow ← getFloorMajorShadow content state .FLOOR_START
              match shadow with
              | some eff =>
                  applyMajorEffect state state.floor.activeMajorId eff
                    events
              | none => .ok (state, events)
            else .ok (state, events)
          if state.debug.pendingPrompt.isSome then .ok (state, events)
          else do
            let (state, events) ←
              if !state.debug.floorStartAppliedOrderConstraintHook then do
                let state := { state with debug := { state.debug with
                  floorStartAppliedOrderConstraintHook := true } }
                let shadow ←
                  getFloorMajorShadow content state .ORDER_CONSTRAINT
                match shadow with
                | some eff =>
                    applyMajorEffect state state.floor.activeMajorId eff
                      events
                | none => .ok (state, events)
              else .ok (state, events)
            if state.debug.pendingPrompt.isSome then .ok (state, events)
            else
              autoAdvance content fuel
                { state with phase := .RoomReveal } events
    | .RoomReveal => fillRoomToFour content state events
    | .EngageSetup =>
        if state.rules.orderConstraint.requiresChooseCarriedFirst &&
           state.room.carryChoiceIndex.isNone then .ok (state, events)
        else
          autoAdvance content fuel
            { state with phase := .PreResolveWindow } events
    | .ResolveCommit =>
        autoAdvance content fuel { state with phase := .ResolveExecute }
          events
    | .ResolveExecute =>
        if state.debug.pendingResolution.isNone then .ok (state, events)
        else do
          let (progressed, state, events) ←
            resolvePendingNoChoice content state events
          if progressed then autoAdvance content fuel state events
          else .ok (state, events)
    | .RoomEnd =>
        match ([0, 1, 2, 3] : List Nat).find?
            (fun i => (state.room.slotAt i).isSome) with
        | none => .error "RoomEnd with no remaining carried card"
        | some remainingIndex =>
            let carriedCardId :=
              (state.room.slotAt remainingIndex).getD ⟨.pentacles, .ace⟩
            if state.floor.bossMode &&
               decide (state.floor.bossRoomsCompleted ≥
                 state.floor.bossRoomsRequired) then
              let defeated := state.floor.activeMajorId
              let state :=
                if !state.majors.claimed.contains defeated then
                  { state with majors := { state.majors with
                      claimed := state.majors.claimed ++ [defeated] } }
                else state
              let state :=
                if !state.majors.spentThisFloor.contains defeated then
                  { state with majors := { state.majors with
                      spentThisFloor :=
                        state.majors.spentThisFloor ++ [defeated] } }
                else state
              if (state.majors.claimed.length : Int) ≥
                 state.runLengthTarget then
                .ok ({ state with phase := .RunVictory }, events)
              else
                let state := { state with floor := { state.floor with
                  floorNumber := state.floor.floorNumber + 1 } }
                match state.decks.majorDeck with
                | [] => .error "Major deck empty"
                | nextMajor :: rest =>
                    let state := { state with
                      decks := { state.decks with majorDeck := rest },
                      floor := { state.floor with
                        activeMajorId := nextMajor },
                      majors := { state.majors with spentThisFloor := [] },
                      phase := .FloorStart }
                    autoAdvance content fuel state events
            else
              let state :=
                if !state.floor.bossMode &&
                   decide (state.floor.engagedRoomsCompleted ≥ 6) then
                  let (shuffled, rng) :=
                    fisherYatesShuffle state.floor.floorDiscard
                      state.rngState
                  { state with
                    rngState := rng,
                    floor := { state.floor with
                      bossMode := true,
                      bossDeck := some shuffled,
                      bossRoomsCompleted := 0,
                      bossRoomsRequired :=
                        computeBossRoomsRequired state.floor.floorNumber } }
                else state
              let state := { state with
                room := buildInitialRoom (some (remainingIndex,
                  carriedCardId)),
                phase := .RoomReveal }
              autoAdvance content fuel state events
    | _ => .ok (state, events)

/-- The fuel handed to `autoAdvance` by the public entry points. -/
def engineFuel : Nat := 1000000

/-- TS `Array.from(new Set(l))`: first-occurrence dedup preserving order. -/
def dedupFirstGo {α : Type} [DecidableEq α] :
    List α → List α → List α
  | _, [] => []
  | seen, x :: rest =>
      if seen.contains x then dedupFirstGo seen rest
      else x :: dedupFirstGo (seen ++ [x]) rest

def dedupFirst {α : Type} [DecidableEq α] (l : List α) : List α :=
  dedupFirstGo [] l

/-- All `(l[i], l[j])` with `i < j`, enumerated `i` ascending then `j`
ascending — the nested index loops of the attunement enumeration. -/
def pairsOf {α : Type} : List α → List (α × α)
  | [] => []
  | x :: xs => (xs.map fun y => (x, y)) ++ pairsOf xs

/-- All `(l[i], l[j], l[k])` with `i < j < k` in nested-loop order. -/
def triplesOf {α : Type} : List α → List (α × α × α)
  | [] => []
  | x :: xs => ((pairsOf xs).map fun p => (x, p.1, p.2)) ++ triplesOf xs

/-- The occupied-and-unresolved slot list of the `PreResolveWindow`
branch of `getLegalActions`. -/
def preResolveOccupiedSlots (state : RunState) : List Nat :=
  ([0, 1, 2, 3] : List Nat).filter fun i =>
    (state.room.slotAt i).isSome && !(state.room.resolvedAt i)

/-- TS `getLegalActions` (engine.ts). -/
def getLegalActions (state : RunState) : List LegalAction :=
  if state.phase = .RunDefeat || state.phase = .RunVictory then []
  else if state.player.hp ≤ 0 then []
  else if (state.debug.pendingPrompt.map (·.isMajorKind)).getD false then
    getMajorPromptLegalActions state
  else if state.phase = .FloorStart then
    let uniqueClaimed := dedupFirst state.majors.claimed
    [LegalAction.SELECT_ATTUNEMENT []] ++
      (uniqueClaimed.map fun m => LegalAction.SELECT_ATTUNEMENT [m]) ++
      ((pairsOf uniqueClaimed).map fun p =>
        LegalAction.SELECT_ATTUNEMENT [p.1, p.2]) ++
      ((triplesOf uniqueClaimed).map fun t =>
        LegalAction.SELECT_ATTUNEMENT [t.1, t.2.1, t.2.2])
  else if state.phase = .RoomChoice then
    [LegalAction.CHOOSE_ENGAGE] ++
      (if !state.lastRoomWasFlee then [LegalAction.CHOOSE_FLEE] else [])
  else if state.phase = .EngageSetup then
    if state.rules.orderConstraint.requiresChooseCarriedFirst &&
       state.room.carryChoiceIndex.isNone then
      (([0, 1, 2, 3] : List Nat).filter fun i =>
        (state.room.slotAt i).isSome).map fun slotIndex =>
          .SELECT_CARRIED_CARD slotIndex
    else []
  else if state.phase = .PreResolveWindow then
    let occupiedSlots := preResolveOccupiedSlots state
    (state.majors.attuned.filter fun majorId =>
      !state.majors.spentThisFloor.contains majorId).map
        (fun majorId => LegalAction.USE_MAJOR_GIFT majorId none none) ++
    (if !state.room.leapUsed then
      occupiedSlots.map fun i => LegalAction.USE_LEAP_OF_FAITH i
     else []) ++
    (if state.player.fate ≥ 1 &&
        !state.room.disabledFateActionsThisRoom.contains .REROLL then
      occupiedSlots.map fun i => LegalAction.SPEND_FATE_REROLL i
     else []) ++
    (if state.player.fate ≥ 1 &&
        !state.room.disabledFateActionsThisRoom.contains .CLEANSE then
      (occupiedSlots.filter fun i =>
        computeEffectiveOrientation state i
          (getCard state ((state.room.slotAt i).getD
            ⟨.pentacles, .ace⟩)) = .reversed).map
        fun i => LegalAction.SPEND_FATE_CLEANSE i
     else []) ++
    (if state.player.fate ≥ 2 then
      (occupiedSlots.map fun i => LegalAction.SPEND_FATE_EXILE_REPLACE i)
        ++ [LegalAction.SPEND_FATE_CHEAT_WEAPON]
     else []) ++
    (if state.player.spell.isSome then
      (occupiedSlots.map fun i => LegalAction.USE_SPELL_CLEANSE i) ++
        (occupiedSlots.map fun i => LegalAction.USE_SPELL_REROLL i)
     else []) ++
    ((computeAllowedCommitSlots state).map fun i =>
      LegalAction.COMMIT_RESOLVE i)
  else if state.phase = .ResolveExecute then
    match state.debug.pendingResolution with
    | none => []
    | some pending =>
        let card := getCard state pending.cardId
        let effective :=
          computeEffectiveOrientation state pending.slotIndex card
        match card.rank with
        | .ace =>
            if card.suit = .pentacles then
              [.ACE_CHOICE "pay5_heal5" none, .ACE_CHOICE "gain5_take3" none]
            else if card.suit = .cups then
              [LegalAction.ACE_CHOICE "heal_to_full" none] ++
                (([0, 1, 2, 3] : List Nat).filterMap fun slotIndex =>
                  match state.room.slotAt slotIndex with
                  | none => none
                  | some id =>
                      if computeEffectiveOrientation state slotIndex
                           (getCard state id) = .reversed then
                        some (LegalAction.ACE_CHOICE "cleanse_free"
                          (some slotIndex))
                      else none)
            else if card.suit = .wands then
              (([0, 1, 2, 3] : List Nat).filter fun slotIndex =>
                (state.room.slotAt slotIndex).isSome).flatMap
                fun slotIndex =>
                  [.ACE_CHOICE "exile_replace_free" (some slotIndex),
                   .ACE_CHOICE "reroll_free" (some slotIndex)]
            else
              [LegalAction.ACE_CHOICE "cheat_weapon_free" none] ++
                ((([0, 1, 2, 3] : List Nat).filter fun slotIndex =>
                  (state.room.slotAt slotIndex).isSome).map
                  fun slotIndex =>
                    LegalAction.ACE_CHOICE "reroll_free" (some slotIndex))
        | .number _ =>
            if card.suit = .swords && effective = .reversed &&
               state.player.weapon.isSome then
              [.SWORDS_AMBUSH_BLOCK_CHOICE true,
               .SWORDS_AMBUSH_BLOCK_CHOICE false]
            else if card.suit = .cups && effective = .upright &&
               decide (computeMinorNumericValue card.rank ≥ 8) then
              [.CUPS_8_10_CHOICE .heal, .CUPS_8_10_CHOICE .equipArmor]
            else []
        | .court _ =>
            let enemyVal := computeEnemyValue card effective
            let canWeapon := canUseWeaponAgainstEnemy state enemyVal
            if state.player.weapon.isSome && canWeapon then
              [.ENEMY_FIGHT_CHOICE .barehand, .ENEMY_FIGHT_CHOICE .weapon]
            else []
  else []

/-! ## The reducer: engine.ts `applyAction` -/

/-- The `finalize` closure of the `ACE_CHOICE`/`ENEMY_FIGHT_CHOICE`/
`SWORDS_AMBUSH_BLOCK_CHOICE`/`CUPS_8_10_CHOICE` branch:
`completeResolvedCard` then `autoAdvance`. -/
def finalizeResolution (content : LoadedContent) (state : RunState)
    (events : List GameEvent) (slotIndex : Nat) (cardId : CardId)
    (effective : Orientation) (discardToFloor : Bool) :
    Except String (RunState × List GameEvent) := do
  let (state, events) ← completeResolvedCard content state events
    slotIndex cardId effective discardToFloor
  autoAdvance content engineFuel state events

/-- TS `applyAction` (engine.ts). The TypeScript function first
`structuredClone`s the input and mutates only the clone; in the pure
embedding the clone is the input value itself. `throw` is
`Except.error`. -/
def applyAction (content : LoadedContent) (state : RunState)
    (action : LegalAction) :
    Except String (RunState × List GameEvent) := do
  let events : List GameEvent := []
  if state.player.hp ≤ 0 then
    .ok ({ state with phase := .RunDefeat }, events)
  else if (state.debug.pendingPrompt.map (·.isMajorKind)).getD false then
    match getMajorPrompt state with
    | none => .error "Major prompt missing payload"
    | some prompt =>
        match action with
        | .USE_MAJOR_GIFT majorId optionId slotIndex =>
            match prompt with
            | .CHOICE pMajorId _ optionIds optionEffects =>
                if majorId ≠ pMajorId then
                  .error "Prompt majorId mismatch"
                else
                  match optionId with
                  | none => .error "Missing optionId"
                  | some oid =>
                      match optionIds.findIdx? (· == oid) with
                      | none => .error "Unknown optionId"
                      | some idx =>
                          match optionEffects.get? idx with
                          | none => .error "TypeError: undefined effect"
                          | some eff => do
                              let state := clearMajorPrompt state
                              let (state, events) ← applyMajorEffect state
                                pMajorId eff events
                              autoAdvance content engineFuel state events
            | .SELECT_TARGET pMajorId eff candidates =>
                if majorId ≠ pMajorId then
                  .error "Prompt majorId mismatch"
                else
                  match slotIndex with
                  | none => .error "Missing slotIndex"
                  | some si =>
                      if !candidates.contains si then
                        .error "Slot not a candidate"
                      else do
                        let state := clearMajorPrompt state
                        let (state, events) ← applyMajorEffectToSlot state
                          eff si events
                        autoAdvance content engineFuel state events
            | _ => .error "USE_MAJOR_GIFT not valid for this major prompt"
        | .BARGAIN_CHOICE bargainChoice =>
            match prompt with
            | .BARGAIN _ _ options bargainOptions =>
                match options.findIdx? (· == bargainChoice) with
                | none => .error "Bargain option not available"
                | some ix =>
                    match bargainOptions.get? ix with
                    | none => .error "TypeError: undefined bargain option"
                    | some opt => do
                        let (state, events) ←
                          if bargainChoice = .pay then
                            let payGold := opt.payGold.getD 0
                            if state.player.gold < payGold then
                              .error "Not enough gold"
                            else if payGold ≠ 0 then
                              .ok (addGold state (-payGold) events)
                            else .ok (state, events)
                          else
                            let dmg := opt.takeDamage.getD 0
                            if dmg ≠ 0 then
                              .ok (applyDamage state dmg events)
                            else .ok (state, events)
                        let (state, events) :=
                          if opt.gainGold.getD 0 ≠ 0 then
                            addGold state (opt.gainGold.getD 0) events
                          else (state, events)
                        let (state, events) :=
                          if opt.heal.getD 0 ≠ 0 then
                            applyHeal state (opt.heal.getD 0) events
                          else (state, events)
                        let state := clearMajorPrompt state
                        autoAdvance content engineFuel state events
            | _ => .error "Expected BARGAIN prompt"
        | .REORDER_TOP3 ord =>
            match prompt with
            | .REORDER_TOP3 _ =>
                if ord.length ≠ 3 then .error "order must be length 3"
                else if (dedupFirst ord).length ≠ 3 then
                  .error "order must be a permutation"
                else if !ord.all (fun x => x = 0 || x = 1 || x = 2) then
                  .error "order indices out of range"
                else
                  let deck :=
                    if state.floor.bossMode then state.floor.bossDeck
                    else some state.decks.minorDeck
                  match deck with
                  | none => .error "Active deck missing"
                  | some deck =>
                      let top3 := deck.take 3
                      if top3.length ≠ 3 then
                        .error "Deck has fewer than 3 cards"
                      else
                        let nextTop3 := ord.filterMap fun i => top3.get? i
                        let newDeck := nextTop3 ++ deck.drop 3
                        let state :=
                          if state.floor.bossMode then
                            { state with floor := { state.floor with
                                bossDeck := some newDeck } }
                          else
                            { state with decks := { state.decks with
                                minorDeck := newDeck } }
                        let state := clearMajorPrompt state
                        autoAdvance content engineFuel state events
            | _ => .error "Expected REORDER_TOP3 prompt"
        | .REORDER_ROOM4 ord =>
            match prompt with
            | .REORDER_ROOM4 _ =>
                if ord.length ≠ 4 then .error "order must be length 4"
                else if (dedupFirst ord).length ≠ 4 then
                  .error "order must be a permutation"
                else if !ord.all
                    (fun x => x = 0 || x = 1 || x = 2 || x = 3) then
                  .error "order indices out of range"
                else
                  let oldRoom := state.room
                  let prevCarriedId :=
                    match oldRoom.carriedIndex with
                    | none => none
                    | some ci => oldRoom.slotAt ci
                  let prevCarryChoiceId :=
                    match oldRoom.carryChoiceIndex with
                    | none => none
                    | some ci => oldRoom.slotAt ci
                  let state := { state with room := { state.room with
                    slots := ord.map fun i => oldRoom.slotAt i,
                    pendingCleanses := ord.map fun i => oldRoom.cleanseAt i,
                    resolvedMask := ord.map fun i => oldRoom.resolvedAt i } }
                  let state :=
                    match prevCarriedId with
                    | none => state
                    | some cid =>
                        { state with room := { state.room with
                            carriedIndex :=
                              state.room.slots.findIdx? (· == some cid) } }
                  let state :=
                    match prevCarryChoiceId with
                    | none => state
                    | some cid =>
                        { state with room := { state.room with
                            carryChoiceIndex :=
                              state.room.slots.findIdx? (· == some cid) } }
                  let state := clearMajorPrompt state
                  autoAdvance content engineFuel state events
            | _ => .error "Expected REORDER_ROOM4 prompt"
        | _ => .error "Action not allowed while major prompt is pending"
  else
    match action with
    | .SELECT_ATTUNEMENT ids =>
        if state.phase ≠ .FloorStart then
          .error "SELECT_ATTUNEMENT not allowed in this phase"
        else if ids.length > 3 then
          .error "Can only attune up to 3 majors"
        else if (dedupFirst ids).length ≠ ids.length then
          .error "Duplicate majorIds"
        else if !ids.all (fun id => state.majors.claimed.contains id) then
          .error "Can only attune claimed majors"
        else
          let state := { state with
            majors := { state.majors with
              attuned := ids,
              spentThisFloor := [] },
            debug := { state.debug with
              floorStartAttunementChosen := true } }
          autoAdvance content engineFuel state events
    | .CHOOSE_FLEE =>
        if state.phase ≠ .RoomChoice then
          .error "CHOOSE_FLEE not allowed in this phase"
        else if state.lastRoomWasFlee then
          .error "Cannot flee two rooms in a row"
        else do
          let step : RunState × List GameEvent → Nat →
              Except String (RunState × List GameEvent) :=
            fun (state, events) i =>
              match state.room.slotAt i with
              | none => .ok (state, events)
              | some id => do
                  let (state, events) ← bottomToActiveDeck state id events
                  .ok ({ state with room := { state.room with
                          slots := state.room.slots.set i none,
                          pendingCleanses :=
                            state.room.pendingCleanses.set i false } },
                       events)
          let (state, events) ← step (state, events) 0
          let (state, events) ← step (state, events) 1
          let (state, events) ← step (state, events) 2
          let (state, events) ← step (state, events) 3
          let state := { state with
            lastRoomWasFlee := true,
            room := buildInitialRoom none,
            phase := .RoomReveal }
          autoAdvance content engineFuel state events
    | .CHOOSE_ENGAGE =>
        if state.phase ≠ .RoomChoice then
          .error "CHOOSE_ENGAGE not allowed in this phase"
        else
          autoAdvance content engineFuel
            { state with lastRoomWasFlee := false, phase := .EngageSetup }
            events
    | .SELECT_CARRIED_CARD slotIndex =>
        if state.phase ≠ .EngageSetup then
          .error "SELECT_CARRIED_CARD not allowed in this phase"
        else if !state.rules.orderConstraint.requiresChooseCarriedFirst
        then .error "No carried selection required"
        else if (state.room.slotAt slotIndex).isNone then
          .error "Slot is empty"
        else
          autoAdvance content engineFuel
            { state with room := { state.room with
                carryChoiceIndex := some slotIndex } } events
    | .USE_LEAP_OF_FAITH slotIndex =>
        if state.phase ≠ .PreResolveWindow then
          .error "USE_LEAP_OF_FAITH not allowed in this phase"
        else if state.room.leapUsed then
          .error "Leap already used this room"
        else
          match state.room.slotAt slotIndex with
          | none => .error "Slot is empty"
          | some cardId =>
              let card := getCard state cardId
              let newOrientation : Orientation :=
                if card.orientation = .upright then .reversed
                else .upright
              let state := { state with
                decks := { state.decks with
                  minors := state.decks.minors.map fun p =>
                    if p.1 == cardId then
                      (p.1, { card with orientation := newOrientation })
                    else p },
                room := { state.room with leapUsed := true } }
              if newOrientation = .reversed then
                .ok (addFate state 2 events)
              else .ok (applyDamage state 2 events)
    | .USE_MAJOR_GIFT majorId _ _ =>
        if state.phase ≠ .PreResolveWindow then
          .error "USE_MAJOR_GIFT not allowed in this phase"
        else if !state.majors.attuned.contains majorId then
          .error "Major is not attuned"
        else if state.majors.spentThisFloor.contains majorId then
          .error "Major already spent this floor"
        else
          match content.majorById majorId with
          | none => .error "Unknown majorId"
          | some major => do
              let state := { state with majors := { state.majors with
                spentThisFloor :=
                  state.majors.spentThisFloor ++ [majorId] } }
              let (state, events) ← applyMajorEffect state majorId
                major.gift.effect events
              autoAdvance content engineFuel state events
    | .SPEND_FATE_REROLL slotIndex =>
        if state.phase ≠ .PreResolveWindow then
          .error "SPEND_FATE_REROLL not allowed in this phase"
        else if state.room.disabledFateActionsThisRoom.contains .REROLL
        then .error "Fate reroll disabled this room"
        else if state.player.fate < 1 then .error "Not enough Fate"
        else
          match state.room.slotAt slotIndex with
          | none => .error "Slot is empty"
          | some cardId => do
              let (state, events) := addFate state (-1) events
              let (state, events) ← bottomToActiveDeck state cardId events
              let state := { state with room := { state.room with
                pendingCleanses :=
                  state.room.pendingCleanses.set slotIndex false } }
              let (drawn, state) ← drawFromMinorDeck state
              .ok ({ state with room := { state.room with
                      slots := state.room.slots.set slotIndex
                        (some drawn) } }, events)
    | .SPEND_FATE_CLEANSE slotIndex =>
        if state.phase ≠ .PreResolveWindow then
          .error "SPEND_FATE_CLEANSE not allowed in this phase"
        else if state.room.disabledFateActionsThisRoom.contains .CLEANSE
        then .error "Fate cleanse disabled this room"
        else if state.player.fate < 1 then .error "Not enough Fate"
        else
          match state.room.slotAt slotIndex with
          | none => .error "Slot is empty"
          | some cardId =>
              let card := getCard state cardId
              if computeEffectiveOrientation state slotIndex card ≠
                 .reversed then
                .error "Can only cleanse effective-reversed cards"
              else
                let (state, events) := addFate state (-1) events
                .ok ({ state with room := { state.room with
                        pendingCleanses :=
                          state.room.pendingCleanses.set slotIndex true } },
                     events)
    | .SPEND_FATE_EXILE_REPLACE slotIndex =>
        if state.phase ≠ .PreResolveWindow then
          .error "SPEND_FATE_EXILE_REPLACE not allowed in this phase"
        else if state.player.fate < 2 then .error "Not enough Fate"
        else
          match state.room.slotAt slotIndex with
          | none => .error "Slot is empty"
          | some cardId => do
              let (state, events) := addFate state (-2) events
              let (state, events) := exileToFloorDiscard state cardId events
              let state := { state with room := { state.room with
                pendingCleanses :=
                  state.room.pendingCleanses.set slotIndex false } }
              let (drawn, state) ← drawFromMinorDeck state
              .ok ({ state with room := { state.room with
                      slots := state.room.slots.set slotIndex
                        (some drawn) } }, events)
    | .SPEND_FATE_CHEAT_WEAPON =>
        if state.phase ≠ .PreResolveWindow then
          .error "SPEND_FATE_CHEAT_WEAPON not allowed in this phase"
        else if state.player.fate < 2 then .error "Not enough Fate"
        else
          let (state, events) := addFate state (-2) events
          .ok ({ state with player := { state.player with
                  buffs := { state.player.buffs with
                    cheatWeaponNextEnemyFight := true } } }, events)
    | .USE_SPELL_CLEANSE slotIndex =>
        if state.phase ≠ .PreResolveWindow then
          .error "USE_SPELL_CLEANSE not allowed in this phase"
        else
          match state.player.spell with
          | none => .error "No spell prepared"
          | some spell =>
              if (state.room.slotAt slotIndex).isNone then
                .error "Slot is empty"
              else
                let state := { state with
                  player := { state.player with spell := none } }
                let (state, events) :=
                  exileToFloorDiscard state spell.cardId events
                .ok ({ state with room := { state.room with
                        pendingCleanses :=
                          state.room.pendingCleanses.set slotIndex true } },
                     events)
    | .USE_SPELL_REROLL slotIndex =>
        if state.phase ≠ .PreResolveWindow then
          .error "USE_SPELL_REROLL not allowed in this phase"
        else
          match state.player.spell with
          | none => .error "No spell prepared"
          | some spell =>
              match state.room.slotAt slotIndex with
              | none => .error "Slot is empty"
              | some cardId => do
                  let state := { state with
                    player := { state.player with spell := none } }
                  let (state, events) :=
                    exileToFloorDiscard state spell.cardId events
                  let (state, events) ←
                    bottomToActiveDeck state cardId events
                  let state := { state with room := { state.room with
                    pendingCleanses :=
                      state.room.pendingCleanses.set slotIndex false } }
                  let (drawn, state) ← drawFromMinorDeck state
                  .ok ({ state with room := { state.room with
                          slots := state.room.slots.set slotIndex
                            (some drawn) } }, events)
    | .COMMIT_RESOLVE slotIndex =>
        if state.phase ≠ .PreResolveWindow then
          .error "COMMIT_RESOLVE not allowed in this phase"
        else if !(computeAllowedCommitSlots state).contains slotIndex then
          .error "Slot not legal to resolve"
        else
          match state.room.slotAt slotIndex with
          | none => .error "Slot is empty"
          | some cardId => do
              let hangedMan ←
                if !state.room.hangedManTriggeredThisRoom &&
                   resolvedCount state = 0 then do
                  let shadow ← getFloorMajorShadow content state
                    .BEFORE_FIRST_RESOLVE_ATTEMPT
                  match shadow with
                  | some eff =>
                      .ok (decide
                        (eff.type = .FORCED_EXILE_FIRST_RESOLVE_ATTEMPT))
                  | none => .ok false
                else .ok false
              if hangedMan then do
                let state := { state with room := { state.room with
                  hangedManTriggeredThisRoom := true } }
                let (state, events) :=
                  exileToFloorDiscard state cardId events
                let state := { state with room := { state.room with
                  pendingCleanses :=
                    state.room.pendingCleanses.set slotIndex false } }
                let (drawn, state) ← drawFromMinorDeck state
                let state := { state with room := { state.room with
                  slots := state.room.slots.set slotIndex (some drawn) } }
                autoAdvance content engineFuel state events
              else
                let state := { state with
                  phase := .ResolveCommit,
                  debug := { state.debug with
                    pendingResolution :=
                      some { slotIndex := slotIndex, cardId := cardId } } }
                autoAdvance content engineFuel state events
    | .ACE_CHOICE _ _ | .ENEMY_FIGHT_CHOICE _
    | .SWORDS_AMBUSH_BLOCK_CHOICE _ | .CUPS_8_10_CHOICE _ =>
        if state.phase ≠ .ResolveExecute then
          .error "choice action not allowed in this phase"
        else
          match state.debug.pendingResolution with
          | none => .error "No pending resolution"
          | some pending =>
              let slotIndex := pending.slotIndex
              match state.room.slotAt slotIndex with
              | none => .error "Pending resolution card mismatch"
              | some resolvingCardId =>
                  if resolvingCardId ≠ pending.cardId then
                    .error "Pending resolution card mismatch"
                  else
                    let card := getCard state resolvingCardId
                    let effective :=
                      computeEffectiveOrientation state slotIndex card
                    match card.rank with
                    | .ace =>
                        (match action with
                        | .ACE_CHOICE optionId aSlot =>
                            if card.suit = .pentacles then
                              if optionId = "pay5_heal5" then
                                if state.player.gold < 5 then
                                  .error "Not enough gold"
                                else do
                                  let (state, events) :=
                                    addGold state (-5) events
                                  let (state, events) :=
                                    applyHeal state 5 events
                                  finalizeResolution content state events
                                    slotIndex resolvingCardId effective true
                              else if optionId = "gain5_take3" then do
                                let (state, events) :=
                                  addGold state 5 events
                                let (state, events) :=
                                  applyDamage state 3 events
                                finalizeResolution content state events
                                  slotIndex resolvingCardId effective true
                              else .error "Unknown pentacles ace optionId"
                            else if card.suit = .cups then
                              if optionId = "heal_to_full" then do
                                let (state, events) :=
                                  applyHeal state state.player.maxHp events
                                finalizeResolution content state events
                                  slotIndex resolvingCardId effective true
                              else if optionId = "cleanse_free" then
                                match aSlot with
                                | none =>
                                    .error "Missing slotIndex for cleanse_free"
                                | some t =>
                                    match state.room.slotAt t with
                                    | none => .error "Target slot empty"
                                    | some targetId =>
                                        if computeEffectiveOrientation state
                                             t (getCard state targetId) ≠
                                           .reversed then
                                          .error
                                            "Can only cleanse effective-reversed cards"
                                        else do
                                          let state := { state with
                                            room := { state.room with
                                              pendingCleanses :=
                                                state.room.pendingCleanses.set
                                                  t true } }
                                          finalizeResolution content state
                                            events slotIndex resolvingCardId
                                            effective true
                              else .error "Unknown cups ace optionId"
                            else if card.suit = .wands then
                              match aSlot with
                              | none =>
                                  .error "Missing slotIndex for wands ace option"
                              | some t =>
                                  match state.room.slotAt t with
                                  | none => .error "Target slot empty"
                                  | some targetId =>
                                      if optionId = "exile_replace_free"
                                      then do
                                        let (state, events) :=
                                          exileToFloorDiscard state targetId
                                            events
                                        let state := { state with
                                          room := { state.room with
                                            pendingCleanses :=
                                              state.room.pendingCleanses.set
                                                t false } }
                                        let (drawn, state) ←
                                          drawFromMinorDeck state
                                        let state := { state with
                                          room := { state.room with
                                            slots := state.room.slots.set t
                                              (some drawn) } }
                                        finalizeResolution content state
                                          events slotIndex resolvingCardId
                                          effective true
                                      else if optionId = "reroll_free"
                                      then do
                                        let (state, events) ←
                                          bottomToActiveDeck state targetId
                                            events
                                        let state := { state with
                                          room := { state.room with
                                            pendingCleanses :=
                                              state.room.pendingCleanses.set
                                                t false } }
                                        let (drawn, state) ←
                                          drawFromMinorDeck state
                                        let state := { state with
                                          room := { state.room with
                                            slots := state.room.slots.set t
                                              (some drawn) } }
                                        finalizeResolution content state
                                          events slotIndex resolvingCardId
                                          effective true
                                      else
                                        .error "Unknown wands ace optionId"
                            else
                              if optionId = "cheat_weapon_free" then do
                                let state := { state with
                                  player := { state.player with
                                    buffs := { state.player.buffs with
                                      cheatWeaponThisRoom := true } } }
                                finalizeResolution content state events
                                  slotIndex resolvingCardId effective true
                              else if optionId = "reroll_free" then
                                match aSlot with
                                | none =>
                                    .error "Missing slotIndex for reroll_free"
                                | some t =>
                                    match state.room.slotAt t with
                                    | none => .error "Target slot empty"
                                    | some targetId => do
                                        let (state, events) ←
                                          bottomToActiveDeck state targetId
                                            events
                                        let state := { state with
                                          room := { state.room with
                                            pendingCleanses :=
                                              state.room.pendingCleanses.set
                                                t false } }
                                        let (drawn, state) ←
                                          drawFromMinorDeck state
                                        let state := { state with
                                          room := { state.room with
                                            slots := state.room.slots.set t
                                              (some drawn) } }
                                        finalizeResolution content state
                                          events slotIndex resolvingCardId
                                          effective true
                              else .error "Unknown swords ace optionId"
                        | _ => .error "Expected ACE_CHOICE")
                    | .court _ =>
                        (match action with
                        | .ENEMY_FIGHT_CHOICE enemyMode =>
                            let enemyVal := computeEnemyValue card effective
                            if enemyMode = .weapon then
                              match state.player.weapon with
                              | none => .error "No weapon equipped"
                              | some weapon =>
                                  if !canUseWeaponAgainstEnemy state
                                      enemyVal then
                                    .error "Weapon restricted"
                                  else do
                                    let dmg := max 0 (enemyVal - weapon.value)
                                    let (state, events) :=
                                      applyDamage state dmg events
                                    let state :=
                                      match state.player.weapon with
                                      | none => state
                                      | some weapon =>
                                          { state with player :=
                                            { state.player with
                                              weapon := some { weapon with
                                                lastHelpedDefeatValue :=
                                                  some enemyVal,
                                                tuckedEnemyIds :=
                                                  weapon.tuckedEnemyIds ++
                                                    [resolvingCardId] },
                                              buffs :=
                                                { cheatWeaponNextEnemyFight :=
                                                    false,
                                                  cheatWeaponThisRoom :=
                                                    false } } }
                                    finalizeResolution content state events
                                      slotIndex resolvingCardId effective
                                      true
                            else do
                              let (state, events) :=
                                applyDamage state enemyVal events
                              finalizeResolution content state events
                                slotIndex resolvingCardId effective true
                        | _ => .error "Expected ENEMY_FIGHT_CHOICE")
                    | .number _ =>
                        let v := computeMinorNumericValue card.rank
                        if card.suit = .pentacles then do
                          let (state, events) :=
                            if effective = .upright then
                              addGold state v events
                            else
                              let lose := min state.player.gold v
                              let (state, events) :=
                                addGold state (-lose) events
                              let remainder := v - lose
                              if remainder > 0 then
                                applyDamage state remainder events
                              else (state, events)
                          finalizeResolution content state events slotIndex
                            resolvingCardId effective true
                        else if card.suit = .cups then
                          if effective = .upright then
                            if decide (v ≥ 8) then
                              match action with
                              | .CUPS_8_10_CHOICE cupsChoice =>
                                  if cupsChoice = .equipArmor then do
                                    let state := { state with
                                      player := { state.player with
                                        armor := some
                                          { cardId := resolvingCardId,
                                            value := v } } }
                                    let events := events ++
                                      [.EQUIP_ARMOR resolvingCardId v]
                                    finalizeResolution content state events
                                      slotIndex resolvingCardId effective
                                      false
                                  else do
                                    let (state, events) :=
                                      applyHeal state v events
                                    finalizeResolution content state events
                                      slotIndex resolvingCardId effective
                                      true
                              | _ => .error "Expected CUPS_8_10_CHOICE"
                            else do
                              let (state, events) := applyHeal state v events
                              finalizeResolution content state events
                                slotIndex resolvingCardId effective true
                          else do
                            let prevArmor := state.player.armor
                            let state := { state with
                              player := { state.player with armor := none } }
                            let (state, events) := applyDamage state v events
                            let state := { state with
                              player := { state.player with
                                armor := prevArmor } }
                            finalizeResolution content state events
                              slotIndex resolvingCardId effective true
                        else if card.suit = .wands then
                          if effective = .upright then do
                            let state := { state with
                              player := { state.player with
                                spell := some
                                  { cardId := resolvingCardId,
                                    value := v } } }
                            let events := events ++
                              [.EQUIP_SPELL resolvingCardId v]
                            finalizeResolution content state events
                              slotIndex resolvingCardId effective false
                          else do
                            let (state, events) :=
                              match state.player.spell with
                              | some spell =>
                                  let state := { state with
                                    player := { state.player with
                                      spell := none } }
                                  let (state, events) :=
                                    exileToFloorDiscard state spell.cardId
                                      events
                                  (state, events ++
                                    [GameEvent.DISCARD_EQUIPMENT
                                      EquipmentKind.spell spell.cardId])
                              | none => applyDamage state 2 events
                            finalizeResolution content state events
                              slotIndex resolvingCardId effective true
                        else
                          if effective = .upright then do
                            let (state, events) :=
                              match state.player.weapon with
                              | some prev =>
                                  let (state, events) :=
                                    exileToFloorDiscard state prev.cardId
                                      events
                                  (state, events ++
                                    [GameEvent.DISCARD_EQUIPMENT
                                      EquipmentKind.weapon prev.cardId])
                              | none => (state, events)
                            let newWeapon : EquipmentWeapon :=
                              { cardId := resolvingCardId, value := v,
                                lastHelpedDefeatValue := none,
                                tuckedEnemyIds := [] }
                            let state := { state with
                              player := { state.player with
                                weapon := some newWeapon } }
                            let events := events ++
                              [.EQUIP_WEAPON resolvingCardId v]
                            finalizeResolution content state events
                              slotIndex resolvingCardId effective false
                          else
                            match state.player.weapon with
                            | some weapon =>
                                (match action with
                                | .SWORDS_AMBUSH_BLOCK_CHOICE block => do
                                    let dmg :=
                                      if block then
                                        max 0 (v - weapon.value)
                                      else v
                                    let (state, events) :=
                                      applyDamage state dmg events
                                    finalizeResolution content state events
                                      slotIndex resolvingCardId effective
                                      true
                                | _ =>
                                    .error
                                      "Expected SWORDS_AMBUSH_BLOCK_CHOICE")
                            | none => do
                                let (state, events) :=
                                  applyDamage state v events
                                finalizeResolution content state events
                                  slotIndex resolvingCardId effective true
    | _ => .error "Unknown action"

/-! ## Shared claim infrastructure -/

/-- The equipped card ids, weapon/armor/spell order. -/
def equipIds (s : RunState) : List CardId :=
  (s.player.weapon.map (fun w => w.cardId)).toList ++
    (s.player.armor.map (fun a => a.cardId)).toList ++
    (s.player.spell.map (fun a => a.cardId)).toList

/-- Modelled from the spec: the authored content bundle
(packages/game-data/content/majors.json, strings.en.json) is not among
the sources; this minimal valid bundle — exactly 21 Majors, each with a
`NOOP` shadow and gift — stands in for it where a loaded bundle is
needed. -/
def noopMajor (id : MajorId) : MajorDefinition :=
  { id := id,
    ui := { nameKey := "name", shadowSummaryKey := "shadow",
            giftSummaryKey := "gift" },
    shadow := { trigger := .FLOOR_START, effect := EffectNode.simple .NOOP },
    gift := { effect := EffectNode.simple .NOOP } }

def noopBundle : ContentBundle :=
  { majors := { contentVersion := "test-content",
                majors := ALL_MAJORS.map noopMajor },
    strings := [] }

def noopContent : LoadedContent :=
  { majors := noopBundle.majors, strings := noopBundle.strings,
    majorById := fun id =>
      (noopBundle.majors.majors.filter (fun m => m.id = id)).getLast? }

theorem loadContent_noopBundle : loadContent noopBundle = .ok noopContent :=
  rfl

/-- A small baseline state for concrete instantiations. -/
def blankState : RunState :=
  { phase := .PreResolveWindow,
    runLengthTarget := 7,
    fateCap := 10,
    rngState := 1,
    player :=
      { hp := 10, maxHp := 20, gold := 0, fate := 0,
        weapon := none, armor := none, spell := none,
        buffs := { cheatWeaponNextEnemyFight := false,
                   cheatWeaponThisRoom := false } },
    decks := { minors := [], minorDeck := [], majorDeck := [] },
    floor :=
      { floorNumber := 1, activeMajorId := .magician,
        engagedRoomsCompleted := 0, floorDiscard := [], bossMode := false,
        bossRoomsRequired := 2, bossRoomsCompleted := 0, bossDeck := none,
        chariotDirection := none },
    room := buildInitialRoom none,
    majors := { claimed := [], attuned := [], spentThisFloor := [] },
    lastRoomWasFlee := false,
    rules := { weaponRestrictionMode := .DEFAULT,
               orderConstraint :=
                 { kind := .NONE, requiresChooseCarriedFirst := false,
                   scopeMajorId := none } },
    debug := DebugState.empty }

def c6Cid : CardId := ⟨.pentacles, .number 2⟩

def c6Card : MinorCard :=
  { id := c6Cid, suit := .pentacles, rank := .number 2,
    orientation := .upright }

def c6State : RunState :=
  { blankState with
    floor :=
      { blankState.floor with bossMode := true, bossDeck := some [] },
    decks := { blankState.decks with minors := [(c6Cid, c6Card)] },
    room :=
      { blankState.room with slots := [some c6Cid, none, none, none], pendingCleanses := [true, false, false, false] },
    debug :=
      { blankState.debug with pendingResolution := some ⟨0, c6Cid⟩ } }

/-! ## Claim C3: the locked xorshift32 regression -/

/-- C3: seeded with 1, the first five `next_u32` outputs are exactly
270369, 67634689, 2647435461, 307599695, 2398689233, and every output
is a 32-bit state (all arithmetic modulo 2^32). -/
theorem c3_xorshift32_locked_sequence :
    rngOutputs 1 5 =
      [270369, 67634689, 2647435461, 307599695, 2398689233] ∧
    ∀ state : Nat, nextUint32 state < 2 ^ 32 := by
  refine ⟨by decide, fun state => ?_⟩
  unfold nextUint32
  exact Nat.mod_lt _ (by decide)

/-! ## Claim C7: the per-room healing limiter -/

/-- Any further sequence of heal attempts applied to a state. -/
def applyHealMany : RunState → List Int → RunState
  | s, [] => s
  | s, a :: rest => applyHealMany (applyHeal s a []).1 rest

theorem applyHeal_flagged (s : RunState) (a : Int) (ev : List GameEvent)
    (h : s.room.healingUsedThisRoom = true) : applyHeal s a ev = (s, ev) := by
  unfold applyHeal
  split_ifs with h1 h2 h3 <;> simp_all

theorem applyHealMany_flagged (s : RunState) (l : List Int)
    (h : s.room.healingUsedThisRoom = true) : applyHealMany s l = s := by
  induction l with
  | nil => rfl
  | cons a rest ih =>
      unfold applyHealMany
      rw [applyHeal_flagged s a [] h]
      exact ih

theorem applyHeal_changed_flag (s : RunState) (a : Int)
    (ev : List GameEvent)
    (h : (applyHeal s a ev).1.player.hp ≠ s.player.hp) :
    (applyHeal s a ev).1.room.healingUsedThisRoom = true := by
  unfold applyHeal at *
  by_cases h1 : a ≤ 0
  · simp [h1] at h
  · by_cases h2 : s.room.healingUsedThisRoom = true
    · simp [h1, h2] at h
    · by_cases h3 :
        clamp (s.player.hp + a) 0 s.player.maxHp - s.player.hp ≤ 0
      · simp [h1, h2, h3] at h
      · simp [h1, h2, h3]

/-- C7: `apply_heal` is a no-op when the per-room flag is set or the
amount is not positive; otherwise it raises hp by
`min(amount, max_hp − hp)` and sets the flag exactly when that delta is
positive; consequently once a heal actually changed hp, every later
heal attempt in the same room changes nothing. -/
theorem c7_heal_limiter (s : RunState) (amount : Int)
    (ev : List GameEvent) (h0 : 0 ≤ s.player.hp)
    (h1 : s.player.hp ≤ s.player.maxHp) :
    ((s.room.healingUsedThisRoom = true ∨ amount ≤ 0) →
      applyHeal s amount ev = (s, ev)) ∧
    (s.room.healingUsedThisRoom = false → 0 < amount →
      (applyHeal s amount ev).1.player.hp =
        s.player.hp + min amount (s.player.maxHp - s.player.hp) ∧
      ((applyHeal s amount ev).1.room.healingUsedThisRoom = true ↔
        0 < min amount (s.player.maxHp - s.player.hp))) ∧
    (∀ later : List Int,
      (applyHeal s amount ev).1.player.hp ≠ s.player.hp →
      applyHealMany (applyHeal s amount ev).1 later =
        (applyHeal s amount ev).1) := by
  refine ⟨?_, ?_, ?_⟩
  · intro h
    rcases h with h | h
    · exact applyHeal_flagged s amount ev h
    · unfold applyHeal
      simp [h]
  · intro hflag hpos
    unfold applyHeal
    have h1 : ¬ amount ≤ 0 := by omega
    by_cases h3 :
        clamp (s.player.hp + amount) 0 s.player.maxHp - s.player.hp ≤ 0
    · simp only [h1, if_false, hflag, Bool.false_eq_true, h3, if_true]
      constructor
      · simp only [clamp] at h3 ⊢
        omega
      · simp only [hflag, Bool.false_eq_true, false_iff]
        simp only [clamp] at h3 ⊢
        omega
    · simp only [h1, if_false, hflag, Bool.false_eq_true, h3, if_true]
      constructor
      · simp only [clamp] at h3 ⊢
        omega
      · simp only [true_iff]
        simp only [clamp] at h3 ⊢
        omega
  · intro later hchanged
    exact applyHealMany_flagged _ later
      (applyHeal_changed_flag s amount ev hchanged)

/-- C7 witness: at hp 10 / max 20, a first heal of 5 raises hp to 15 and
sets the limiter flag; a second heal of 5 in the same room is a no-op. -/
theorem c7_heal_limiter_witness :
    (applyHeal blankState 5 []).1.player.hp =
      blankState.player.hp +
        min 5 (blankState.player.maxHp - blankState.player.hp) ∧
    applyHealMany (applyHeal blankState 5 []).1 [5] =
      (applyHeal blankState 5 []).1 := by
  have h := c7_heal_limiter blankState 5 [] (by decide) (by decide)
  exact ⟨(h.2.1 rfl (by decide)).1, h.2.2 [5] (by decide)⟩

/-! ## Claim C10: gold and Fate change events -/

/-- C10: `PLAYER_GOLD_CHANGED` and `PLAYER_FATE_CHANGED` carry the
post-clamp delta (gold clamped to [0, 9999], fate to [0, fate_cap]) and
the new total, and are suppressed exactly when the clamped change is
zero. -/
theorem c10_gold_fate_change_events (s : RunState) (d : Int)
    (ev : List GameEvent) :
    (let next := clamp (s.player.gold + d) 0 9999
     if next = s.player.gold then addGold s d ev = (s, ev)
     else addGold s d ev =
       ({ s with player := { s.player with gold := next } },
        ev ++ [.PLAYER_GOLD_CHANGED (next - s.player.gold) next])) ∧
    (let next := clamp (s.player.fate + d) 0 s.fateCap
     if next = s.player.fate then addFate s d ev = (s, ev)
     else addFate s d ev =
       ({ s with player := { s.player with fate := next } },
        ev ++ [.PLAYER_FATE_CHANGED (next - s.player.fate) next])) := by
  constructor
  · simp only [addGold]
    split_ifs with h1 h2 h2 <;> simp_all <;> omega
  · simp only [addFate]
    split_ifs with h1 h2 h2 <;> simp_all <;> omega

/-! ## Claim C5: content loading -/

/-- A bundle with 21 majors that is invalid in every deeper sense the
claim lists: all ids are duplicates of `magician`, the referenced string
keys are missing from the (empty) strings bundle, and the shadow effect
is a malformed `SEQUENCE` with no `effects` field. -/
def c5BadMajor : MajorDefinition :=
  { id := .magician,
    ui := { nameKey := "missing.name", shadowSummaryKey := "missing.shadow",
            giftSummaryKey := "missing.gift" },
    shadow := { trigger := .FLOOR_START,
                effect := EffectNode.simple .SEQUENCE },
    gift := { effect := EffectNode.simple .NOOP } }

def c5BadBundle : ContentBundle :=
  { majors := { contentVersion := "v",
                majors := List.replicate 21 c5BadMajor },
    strings := [] }

/-- C5 counterexample: this bundle has duplicate major ids, references
string keys absent from the strings bundle, and carries a malformed
`SEQUENCE` effect (no `effects`), yet `loadContent` accepts it. -/
theorem c5_counterexample :
    (c5BadBundle.majors.majors.map (fun m => m.id)).Nodup = False ∧
    (c5BadBundle.majors.majors.all fun m =>
      c5BadBundle.strings.any fun p => p.1 = m.ui.nameKey) = false ∧
    (c5BadBundle.majors.majors.all fun m =>
      !(decide (m.shadow.effect.type = .SEQUENCE) &&
        m.shadow.effect.effects.isNone)) = false ∧
    (loadContent c5BadBundle).isOk = true := by
  refine ⟨?_, by decide, by decide, by decide⟩
  simp only [eq_iff_iff, iff_false]
  decide

/-- C5 amended: `load_content` rejects exactly a bundle whose
`contentVersion` is the empty string or whose major list does not have
length 21 (non-object shapes are ruled out by the types); duplicate ids,
unknown ids, missing string keys and malformed effect trees are accepted
at load time, and on success the id→definition lookup maps each id to
the last definition carrying it. -/
theorem c5_loadContent_checks (bundle : ContentBundle) :
    ((loadContent bundle).isOk = true ↔
      (bundle.majors.contentVersion.length ≠ 0 ∧
       bundle.majors.majors.length = 21)) ∧
    (∀ c, loadContent bundle = .ok c →
      ∀ id, c.majorById id =
        (bundle.majors.majors.filter (fun m => m.id = id)).getLast?) := by
  constructor
  · unfold loadContent
    split_ifs with h1 h2
    · simp [Except.isOk, Except.toBool, h1]
    · simp [Except.isOk, Except.toBool, h1, h2]
    · simp only [Except.isOk, Except.toBool, true_iff]
      exact ⟨h1, by omega⟩
  · intro c hc id
    unfold loadContent at hc
    split_ifs at hc
    have h := Except.ok.inj hc
    subst h
    rfl

/-! ## Claim C4: bargain options -/

/-- A pending bargain whose single option heals 5 and grants 5 gold. -/
def c4CexState : RunState :=
  { blankState with
    debug := { DebugState.empty with
      pendingPrompt :=
        some (.MAJOR_BARGAIN .magician "bargain.prompt" [.takeDamage]),
      pendingMajorPrompt :=
        some (.BARGAIN .magician "bargain.prompt" [.takeDamage]
          [{ payGold := none, takeDamage := none,
             heal := some 5, gainGold := some 5 }]) } }

/-- C4 counterexample: applying a bargain option whose `heal` and
`gain_gold` are both nonzero emits `PLAYER_GOLD_CHANGED` before
`PLAYER_HP_CHANGED` — the reducer applies `gain_gold` first, not the
claimed heal-then-gain_gold order. -/
theorem c4_counterexample :
    (applyAction noopContent c4CexState (.BARGAIN_CHOICE .takeDamage)).map
        (fun r => r.2) =
      .ok [.PLAYER_GOLD_CHANGED 5 5, .PLAYER_HP_CHANGED 5 15] := by
  rfl

theorem mem_dedupBargainKinds (k : BargainKind) :
    ∀ (l seen : List BargainKind),
      k ∈ dedupBargainKinds seen l ↔ k ∈ l ∧ k ∉ seen := by
  intro l
  induction l with
  | nil => intro seen; simp [dedupBargainKinds]
  | cons x rest ih =>
      intro seen
      unfold dedupBargainKinds
      by_cases hx : x ∈ seen
      · rw [if_pos (List.elem_iff.mpr hx), ih seen]
        simp only [List.mem_cons]
        constructor
        · rintro ⟨hk, hns⟩
          exact ⟨Or.inr hk, hns⟩
        · rintro ⟨hk | hk, hns⟩
          · exact absurd (hk ▸ hx) hns
          · exact ⟨hk, hns⟩
      · rw [if_neg (fun hc => hx (List.elem_iff.mp hc))]
        simp only [List.mem_cons, ih (seen ++ [x]), List.mem_append,
          List.mem_singleton]
        constructor
        · rintro (hk | ⟨hk, hns⟩)
          · exact ⟨Or.inl hk, hk ▸ hx⟩
          · exact ⟨Or.inr hk, fun hmem => hns (Or.inl hmem)⟩
        · rintro ⟨hk | hk, hns⟩
          · exact Or.inl hk
          · by_cases hkx : k = x
            · exact Or.inl hkx
            · exact Or.inr ⟨hk, fun hmem =>
                (hmem.elim hns fun h => h.elim hkx (by simp))⟩

/-- C4 amended: with a pending bargain prompt, (1) a `pay` choice is
listed as legal iff some authored pay option is affordable
(`gold ≥ pay_gold`), and (2) applying a choice runs: deduct the gold
(rejecting when `gold < pay_gold`) or apply the `take_damage`, then
apply `gain_gold`, then `heal` — in that order, events in that order. -/
theorem c4_bargain_amended (content : LoadedContent) (s : RunState)
    (majorId : MajorId) (pk : String) (options : List BargainKind)
    (bos : List BargainOption)
    (hhp : 0 < s.player.hp)
    (hph1 : s.phase ≠ .RunDefeat) (hph2 : s.phase ≠ .RunVictory)
    (hpp : s.debug.pendingPrompt =
      some (.MAJOR_BARGAIN majorId pk options))
    (hmp : s.debug.pendingMajorPrompt =
      some (.BARGAIN majorId pk options bos)) :
    (LegalAction.BARGAIN_CHOICE .pay ∈ getLegalActions s ↔
      ∃ p ∈ options.zip bos,
        p.1 = BargainKind.pay ∧ s.player.gold ≥ p.2.payGold.getD 0) ∧
    (∀ choice ix opt, options.findIdx? (· == choice) = some ix →
      bos.get? ix = some opt →
      applyAction content s (.BARGAIN_CHOICE choice) = (do
        let (s1, ev1) ←
          if choice = .pay then
            if s.player.gold < opt.payGold.getD 0 then
              Except.error "Not enough gold"
            else if opt.payGold.getD 0 ≠ 0 then
              pure (addGold s (-(opt.payGold.getD 0)) [])
            else pure (s, ([] : List GameEvent))
          else if opt.takeDamage.getD 0 ≠ 0 then
            pure (applyDamage s (opt.takeDamage.getD 0) [])
          else pure (s, ([] : List GameEvent))
        let (s2, ev2) :=
          if opt.gainGold.getD 0 ≠ 0 then
            addGold s1 (opt.gainGold.getD 0) ev1
          else (s1, ev1)
        let (s3, ev3) :=
          if opt.heal.getD 0 ≠ 0 then applyHeal s2 (opt.heal.getD 0) ev2
          else (s2, ev2)
        autoAdvance content engineFuel (clearMajorPrompt s3) ev3)) := by
  constructor
  · unfold getLegalActions
    have hnd : s.phase = .RunDefeat ∨ s.phase = .RunVictory ↔ False := by
      simp [hph1, hph2]
    simp only [hph1, hph2, decide_eq_true_eq, Bool.or_eq_true,
      decide_eq_true_iff]
    rw [if_neg (by simp [hph1, hph2]), if_neg (by omega),
      if_pos (by simp [hpp, PendingPrompt.isMajorKind])]
    unfold getMajorPromptLegalActions getMajorPrompt
    rw [hmp]
    simp only [List.mem_map]
    constructor
    · rintro ⟨k, hk, hke⟩
      cases k
      case pay =>
        rw [mem_dedupBargainKinds] at hk
        rcases hk with ⟨hk, _⟩
        rcases List.mem_filterMap.mp hk with ⟨⟨kind, opt⟩, hmem, hcl⟩
        refine ⟨(kind, opt), hmem, ?_⟩
        cases kind
        case pay =>
          simp only at hcl
          by_cases hg : s.player.gold < opt.payGold.getD 0
          · rw [if_pos hg] at hcl
            cases hcl
          · refine ⟨rfl, ?_⟩
            simp only
            omega
        case takeDamage => simp at hcl
      case takeDamage => cases hke
    · rintro ⟨⟨kind, opt⟩, hmem, hkind, hgold⟩
      refine ⟨.pay, ?_, rfl⟩
      rw [mem_dedupBargainKinds]
      refine ⟨?_, by simp⟩
      apply List.mem_filterMap.mpr
      refine ⟨(kind, opt), hmem, ?_⟩
      subst hkind
      simp only at hgold
      simp only [if_neg (by omega : ¬ s.player.gold < opt.payGold.getD 0)]
  · intro choice ix opt hfind hget
    unfold applyAction
    rw [if_neg (by omega)]
    rw [if_pos (by simp [hpp, PendingPrompt.isMajorKind])]
    unfold getMajorPrompt
    rw [hmp]
    simp only [hfind, hget]
    rfl

/-- A pending pay-bargain (pay 3, heal 5, gain 2) with 10 gold. -/
def c4WitState : RunState :=
  { blankState with
    player := { blankState.player with gold := 10 },
    debug := { DebugState.empty with
      pendingPrompt := some (.MAJOR_BARGAIN .magician "bargain.pay" [.pay]),
      pendingMajorPrompt := some (.BARGAIN .magician "bargain.pay" [.pay]
        [{ payGold := some 3, takeDamage := none,
           heal := some 5, gainGold := some 2 }]) } }

/-- C4 witness: with 10 gold the pay option (pay 3) is listed legal. -/
theorem c4_bargain_amended_witness :
    LegalAction.BARGAIN_CHOICE .pay ∈ getLegalActions c4WitState := by
  have h := c4_bargain_amended noopContent c4WitState .magician
    "bargain.pay" [.pay]
    [{ payGold := some 3, takeDamage := none,
       heal := some 5, gainGold := some 2 }]
    (by decide) (by decide) (by decide) rfl rfl
  exact h.1.mpr (by decide)

/-! ## Claim C8: allowed commit slots -/

/-- Spec wording: the slot with the lowest key, ties broken by the lower
slot index. -/
def argminLex (f : Nat → Int) : List Nat → Option Nat
  | [] => none
  | i :: rest =>
      match argminLex f rest with
      | none => some i
      | some b => if f i < f b ∨ (f i = f b ∧ i ≤ b) then some i else some b

/-- The claim's description of the allowed-commit-slot computation,
written from the spec's words: start from unresolved non-empty slots;
exclude `carry_choice_index` when set; empty when
`requires_choose_carried_first` with no carry choice; then keep all
(NONE), the minimum index (LEFT_TO_RIGHT), the maximum index
(RIGHT_TO_LEFT), the earliest suit in the lock order
cups < pentacles < swords < wands tie-broken by lower index
(SUIT_ORDER), or the lowest ordering value tie-broken by lower index
(ASC_ORDERING_VALUE). -/
def allowedCommitSlotsSpec (s : RunState) : List Nat :=
  let base := ([0, 1, 2, 3] : List Nat).filter fun i =>
    (s.room.slotAt i).isSome && !(s.room.resolvedAt i)
  let base :=
    match s.room.carryChoiceIndex with
    | some c => base.filter fun i => i ≠ c
    | none => base
  if s.rules.orderConstraint.requiresChooseCarriedFirst &&
     s.room.carryChoiceIndex.isNone then []
  else
    match s.rules.orderConstraint.kind with
    | .NONE => base
    | .LEFT_TO_RIGHT =>
        match base.min? with
        | some m => [m]
        | none => []
    | .RIGHT_TO_LEFT =>
        match base.max? with
        | some m => [m]
        | none => []
    | .SUIT_ORDER =>
        let suitKey : Nat → Int := fun i =>
          match (getCard s ((s.room.slotAt i).getD ⟨.pentacles, .ace⟩)).suit
          with
          | .cups => 0
          | .pentacles => 1
          | .swords => 2
          | .wands => 3
        match argminLex suitKey base with
        | some m => [m]
        | none => []
    | .ASC_ORDERING_VALUE =>
        let valueKey : Nat → Int := fun i =>
          computeOrderingValue s i
            (getCard s ((s.room.slotAt i).getD ⟨.pentacles, .ace⟩))
        match argminLex valueKey base with
        | some m => [m]
        | none => []

theorem argminLex_eq_none (f : Nat → Int) (l : List Nat)
    (h : argminLex f l = none) : l = [] := by
  cases l with
  | nil => rfl
  | cons a as =>
      exfalso
      unfold argminLex at h
      cases h2 : argminLex f as with
      | none => simp [h2] at h
      | some b =>
          simp only [h2] at h
          split_ifs at h <;> simp at h

theorem argminLex_mem_min (f : Nat → Int) (l : List Nat) (m : Nat)
    (h : argminLex f l = some m) :
    m ∈ l ∧ ∀ y ∈ l, f m < f y ∨ (f m = f y ∧ m ≤ y) := by
  induction l generalizing m with
  | nil => cases h
  | cons i rest ih =>
      unfold argminLex at h
      cases hr : argminLex f rest with
      | none =>
          have hre : rest = [] := argminLex_eq_none f rest hr
          simp only [hr] at h
          cases h
          subst hre
          refine ⟨List.mem_singleton.mpr rfl, ?_⟩
          intro y hy
          rcases List.mem_singleton.mp hy with rfl
          exact Or.inr ⟨rfl, le_refl _⟩
      | some b =>
          simp only [hr] at h
          rcases ih b hr with ⟨hbmem, hbmin⟩
          split_ifs at h with hcmp
          · cases h
            refine ⟨List.mem_cons_self _ _, ?_⟩
            intro y hy
            rcases List.mem_cons.mp hy with rfl | hy
            · exact Or.inr ⟨rfl, le_refl _⟩
            · rcases hbmin y hy with hlt | ⟨heq, hle⟩
              · rcases hcmp with hc | ⟨hc, _⟩
                · exact Or.inl (by omega)
                · exact Or.inl (by omega)
              · rcases hcmp with hc | ⟨hc, hci⟩
                · exact Or.inl (by omega)
                · exact Or.inr ⟨by omega, by omega⟩
          · cases h
            refine ⟨List.mem_cons_of_mem _ hbmem, ?_⟩
            intro y hy
            rcases List.mem_cons.mp hy with rfl | hy
            · push_neg at hcmp
              rcases hcmp with ⟨hc1, hc2⟩
              by_cases he : f m = f y
              · exact Or.inr ⟨he, Nat.le_of_lt (hc2 he.symm)⟩
              · exact Or.inl (lt_of_le_of_ne hc1 he)
            · exact hbmin y hy

/-- Head of the engine's keyed merge sort, wrapped in the singleton
match the engine performs, equals the spec's lexicographic argmin. -/
theorem mergeSort_head_argmin (f g : Nat → Int) (hfg : ∀ i, f i = g i)
    (l : List Nat) :
    (match (l.map fun i => (i, f i)).mergeSort
        (fun a b => a.2 < b.2 || (a.2 = b.2 && a.1 ≤ b.1)) with
      | [] => ([] : List Nat)
      | top :: _ => [top.1]) =
    (match argminLex g l with
      | some m => [m]
      | none => ([] : List Nat)) := by
  have hfg2 : f = g := funext hfg
  subst hfg2
  cases hl : l with
  | nil => simp [argminLex]
  | cons x xs =>
      have hperm := ((x :: xs).map fun i => (i, f i)).mergeSort_perm
        (fun a b : Nat × Int => a.2 < b.2 || (a.2 = b.2 && a.1 ≤ b.1))
      have htrans : ∀ a b c : Nat × Int,
          (a.2 < b.2 || (a.2 = b.2 && a.1 ≤ b.1)) = true →
          (b.2 < c.2 || (b.2 = c.2 && b.1 ≤ c.1)) = true →
          (a.2 < c.2 || (a.2 = c.2 && a.1 ≤ c.1)) = true := by
        intro a b c hab hbc
        simp only [Bool.or_eq_true, decide_eq_true_eq,
          Bool.and_eq_true] at hab hbc ⊢
        omega
      have htotal : ∀ a b : Nat × Int,
          ((a.2 < b.2 || (a.2 = b.2 && a.1 ≤ b.1)) ||
           (b.2 < a.2 || (b.2 = a.2 && b.1 ≤ a.1))) = true := by
        intro a b
        simp only [Bool.or_eq_true, decide_eq_true_eq,
          Bool.and_eq_true]
        omega
      have hsorted := @List.sorted_mergeSort (Nat × Int)
        (fun a b => a.2 < b.2 || (a.2 = b.2 && a.1 ≤ b.1))
        htrans htotal ((x :: xs).map fun i => (i, f i))
      cases hms : ((x :: xs).map fun i => (i, f i)).mergeSort
          (fun a b => a.2 < b.2 || (a.2 = b.2 && a.1 ≤ b.1)) with
      | nil =>
          exfalso
          have hlen := hperm.length_eq
          rw [hms] at hlen
          simp at hlen
      | cons top rest =>
          have htopmem : top ∈ (x :: xs).map fun i => (i, f i) := by
            refine hperm.mem_iff.mp ?_
            rw [hms]
            exact List.mem_cons_self _ _
          have htopmin : ∀ y ∈ (x :: xs).map fun i => (i, f i),
              top.2 < y.2 ∨ (top.2 = y.2 ∧ top.1 ≤ y.1) := by
            intro y hy
            have hy2 := hperm.mem_iff.mpr hy
            rw [hms] at hy2 hsorted
            rcases List.mem_cons.mp hy2 with rfl | hy3
            · exact Or.inr ⟨rfl, Nat.le_refl _⟩
            · have hb := (List.pairwise_cons.mp hsorted).1 y hy3
              simp only [Bool.or_eq_true, decide_eq_true_eq,
                Bool.and_eq_true] at hb
              exact hb
          cases ham : argminLex f (x :: xs) with
          | none => exact absurd (argminLex_eq_none f _ ham) (by simp)
          | some m =>
              obtain ⟨hmmem, hmmin⟩ := argminLex_mem_min f _ m ham
              have h1 := htopmin (m, f m) (List.mem_map.mpr ⟨m, hmmem, rfl⟩)
              obtain ⟨ti, htimem, htie⟩ := List.mem_map.mp htopmem
              have h2 := hmmin ti htimem
              subst htie
              simp only at h1
              have hti : ti = m := by omega
              show [ti] = [m]
              rw [hti]

/-- C8: the engine's allowed-commit-slot computation matches the
claim's description exactly: unresolved occupied slots, minus the
carried slot, emptied when a carried choice is still owed, then
narrowed by the active order constraint. -/
theorem c8_allowed_commit_slots (s : RunState) :
    computeAllowedCommitSlots s = allowedCommitSlotsSpec s := by
  simp only [computeAllowedCommitSlots, allowedCommitSlotsSpec]
  generalize ([0, 1, 2, 3] : List Nat).filter (fun i =>
    (s.room.slotAt i).isSome && !(s.room.resolvedAt i)) = occ
  cases hol : occ with
  | nil =>
      cases hcc : s.room.carryChoiceIndex <;>
        cases hreq : s.rules.orderConstraint.requiresChooseCarriedFirst <;>
        cases hk : s.rules.orderConstraint.kind <;> rfl
  | cons x xs =>
      cases hcc : s.room.carryChoiceIndex with
      | none =>
          cases hreq : s.rules.orderConstraint.requiresChooseCarriedFirst with
          | true => rfl
          | false =>
              cases hk : s.rules.orderConstraint.kind with
              | NONE => rfl
              | LEFT_TO_RIGHT => rfl
              | RIGHT_TO_LEFT => rfl
              | SUIT_ORDER =>
                  rw [mergeSort_head_argmin
                    (fun i => (match (getCard s ((s.room.slotAt i).getD
                        ⟨.pentacles, .ace⟩)).suit with
                      | .cups => (0 : Int)
                      | .pentacles => 1
                      | .swords => 2
                      | .wands => 3))
                    (fun i => (match (getCard s ((s.room.slotAt i).getD
                        ⟨.pentacles, .ace⟩)).suit with
                      | .cups => (0 : Int)
                      | .pentacles => 1
                      | .swords => 2
                      | .wands => 3))
                    (fun i => rfl) (x :: xs)]
                  rfl
              | ASC_ORDERING_VALUE =>
                  rw [mergeSort_head_argmin
                    (fun i =>
                      (match (getCard s ((s.room.slotAt i).getD
                          ⟨.pentacles, .ace⟩)).rank with
                        | .court _ => computeEnemyValue
                            (getCard s ((s.room.slotAt i).getD
                              ⟨.pentacles, .ace⟩))
                            (computeEffectiveOrientation s i
                              (getCard s ((s.room.slotAt i).getD
                                ⟨.pentacles, .ace⟩)))
                        | .ace => 1
                        | .number _ => computeMinorNumericValue
                            (getCard s ((s.room.slotAt i).getD
                              ⟨.pentacles, .ace⟩)).rank))
                    (fun i => computeOrderingValue s i
                      (getCard s ((s.room.slotAt i).getD
                        ⟨.pentacles, .ace⟩)))
                    (fun i => by
                      dsimp only [computeOrderingValue]
                      cases hrk : (getCard s ((s.room.slotAt i).getD
                          ⟨.pentacles, .ace⟩)).rank <;> rfl)
                    (x :: xs)]
                  rfl
      | some c =>
          simp only [Option.isNone_some, Bool.and_false]
          cases hk : s.rules.orderConstraint.kind with
          | NONE => rfl
          | LEFT_TO_RIGHT =>
              cases hF : (x :: xs).filter (fun i => i ≠ c) with
              | nil => rfl
              | cons y ys => rfl
          | RIGHT_TO_LEFT =>
              cases hF : (x :: xs).filter (fun i => i ≠ c) with
              | nil => rfl
              | cons y ys => rfl
          | SUIT_ORDER =>
              cases hF : (x :: xs).filter (fun i => i ≠ c) with
              | nil => rfl
              | cons y ys =>
                  rw [mergeSort_head_argmin
                    (fun i => (match (getCard s ((s.room.slotAt i).getD
                        ⟨.pentacles, .ace⟩)).suit with
                      | .cups => (0 : Int)
                      | .pentacles => 1
                      | .swords => 2
                      | .wands => 3))
                    (fun i => (match (getCard s ((s.room.slotAt i).getD
                        ⟨.pentacles, .ace⟩)).suit with
                      | .cups => (0 : Int)
                      | .pentacles => 1
                      | .swords => 2
                      | .wands => 3))
                    (fun i => rfl) (y :: ys)]
                  rfl
          | ASC_ORDERING_VALUE =>
              cases hF : (x :: xs).filter (fun i => i ≠ c) with
              | nil => rfl
              | cons y ys =>
                  rw [mergeSort_head_argmin
                    (fun i =>
                      (match (getCard s ((s.room.slotAt i).getD
                          ⟨.pentacles, .ace⟩)).rank with
                        | .court _ => computeEnemyValue
                            (getCard s ((s.room.slotAt i).getD
                              ⟨.pentacles, .ace⟩))
                            (computeEffectiveOrientation s i
                              (getCard s ((s.room.slotAt i).getD
                                ⟨.pentacles, .ace⟩)))
                        | .ace => 1
                        | .number _ => computeMinorNumericValue
                            (getCard s ((s.room.slotAt i).getD
                              ⟨.pentacles, .ace⟩)).rank))
                    (fun i => computeOrderingValue s i
                      (getCard s ((s.room.slotAt i).getD
                        ⟨.pentacles, .ace⟩)))
                    (fun i => by
                      dsimp only [computeOrderingValue]
                      cases hrk : (getCard s ((s.room.slotAt i).getD
                          ⟨.pentacles, .ace⟩)).rank <;> rfl)
                    (y :: ys)]
                  rfl

/-! ## Claim C9: terminal states absorb -/

/-- A dead, defeated state used to instantiate the C9 theorem. -/
def c9DeadState : RunState :=
  { blankState with
    phase := .RunDefeat,
    player := { blankState.player with hp := 0 } }

/-- C9: with phase RunVictory or RunDefeat the legal-action list is
empty; with hp ≤ 0 the legal-action list is empty and `applyAction`
returns the state with phase RunDefeat and no events, for every action. -/
theorem c9_terminal_absorption (content : LoadedContent) (s : RunState)
    (a : LegalAction) :
    ((s.phase = .RunDefeat ∨ s.phase = .RunVictory) →
      getLegalActions s = []) ∧
    (s.player.hp ≤ 0 →
      getLegalActions s = [] ∧
      applyAction content s a = .ok ({ s with phase := .RunDefeat }, [])) := by
  constructor
  · intro h
    unfold getLegalActions
    rcases h with h | h <;> simp [h]
  · intro hhp
    constructor
    · unfold getLegalActions
      by_cases h1 : (decide (s.phase = PhaseId.RunDefeat) ||
          decide (s.phase = PhaseId.RunVictory)) = true
      · rw [if_pos h1]
      · rw [if_neg h1, if_pos hhp]
    · unfold applyAction
      rw [if_pos hhp]

theorem c9_terminal_absorption_witness :
    getLegalActions c9DeadState = [] ∧
    applyAction noopContent c9DeadState LegalAction.CHOOSE_ENGAGE =
      .ok ({ c9DeadState with phase := .RunDefeat }, []) :=
  ⟨(c9_terminal_absorption noopContent c9DeadState
      LegalAction.CHOOSE_ENGAGE).1 (Or.inl rfl),
   ((c9_terminal_absorption noopContent c9DeadState
      LegalAction.CHOOSE_ENGAGE).2 (by decide)).2⟩

/-! ## Claim C6: boss corruption, cleanse, and Fate -/

theorem exceptBindOk {α β : Type} (x : Except String α)
    (f : α → Except String β) (b : β) (h : (x >>= f) = .ok b) :
    ∃ a, x = .ok a ∧ f a = .ok b := by
  cases x with
  | error e => cases h
  | ok a => exact ⟨a, rfl, h⟩

theorem bottomToActiveDeck_player (s : RunState) (c : CardId)
    (ev : List GameEvent) (s' : RunState) (ev' : List GameEvent)
    (h : bottomToActiveDeck s c ev = .ok (s', ev')) :
    s'.player = s.player := by
  unfold bottomToActiveDeck at h
  split at h
  · cases hb : s.floor.bossDeck with
    | none => rw [hb] at h; cases h
    | some d => rw [hb] at h; cases h; rfl
  · cases h; rfl

theorem drawFromMinorDeck_player (s : RunState) (c : CardId)
    (s' : RunState) (h : drawFromMinorDeck s = .ok (c, s')) :
    s'.player = s.player := by
  unfold drawFromMinorDeck at h
  split at h
  · split at h
    · cases h; rfl
    · cases h
  · split at h
    · cases h; rfl
    · cases h

theorem beginMajorEffectPrompt_player (s : RunState) (mid : MajorId)
    (e : EffectNode) (s' : RunState)
    (h : beginMajorEffectPrompt s mid e = .ok s') :
    s'.player = s.player := by
  unfold beginMajorEffectPrompt at h
  dsimp only at h
  repeat' split at h
  all_goals (cases h <;> rfl)

theorem applyMajorEffectToSlot_player (s : RunState) (e : EffectNode)
    (i : Nat) (ev : List GameEvent) (s' : RunState)
    (ev' : List GameEvent)
    (h : applyMajorEffectToSlot s e i ev = .ok (s', ev')) :
    s'.player = s.player := by
  unfold applyMajorEffectToSlot at h
  dsimp only [exileToFloorDiscard] at h
  split at h
  · cases h; rfl
  · split at h
    · split at h
      · cases h; rfl
      · cases h; rfl
    · obtain ⟨⟨s1, ev1⟩, h1, h2⟩ := exceptBindOk _ _ _ h
      dsimp only at h2
      obtain ⟨⟨c2, s2⟩, h3, h4⟩ := exceptBindOk _ _ _ h2
      dsimp only at h4
      cases h4
      have p1 := bottomToActiveDeck_player _ _ _ _ _ h1
      have p2 := drawFromMinorDeck_player _ _ _ h3
      exact p2.trans p1
    · obtain ⟨⟨c2, s2⟩, h3, h4⟩ := exceptBindOk _ _ _ h
      dsimp only at h4
      cases h4
      have p2 := drawFromMinorDeck_player _ _ _ h3
      exact p2.trans rfl
    · cases h; rfl

set_option maxHeartbeats 2000000 in
theorem applyMajorEffect_fate_rec (n : Nat) :
    (∀ e : EffectNode, sizeOf e ≤ n → ∀ s mid ev s' ev',
      applyMajorEffect s mid e ev = .ok (s', ev') →
      s'.player.fate = s.player.fate) ∧
    (∀ es : List EffectNode, sizeOf es ≤ n → ∀ s mid ev s' ev',
      applyMajorEffectSeq s mid es ev = .ok (s', ev') →
      s'.player.fate = s.player.fate) := by
  induction n using Nat.strong_induction_on with
  | _ n IH =>
  constructor
  · intro e hsz s mid ev s' ev' h
    obtain ⟨ty, effs, pk0, opts, pif, pthen, pelse, sel, nn, cr, fa, sc,
      wrmv, ocv, rccfv, pkeyv, pvalv, bosv⟩ := e
    unfold applyMajorEffect at h
    try simp only [beginMajorEffectPrompt, EffectNode.type,
      EffectNode.promptKey, EffectNode.options, EffectNode.bargainOptions,
      EffectNode.selector] at h
    repeat' split at h
    all_goals first
      | (exact (IH _ (by
            simp only [EffectNode.mk.sizeOf_spec, Option.some.sizeOf_spec,
              List.cons.sizeOf_spec] at hsz
            omega)).1 _ (le_refl _) _ _ _ _ _ h)
      | (exact (IH _ (by
            simp only [EffectNode.mk.sizeOf_spec, Option.some.sizeOf_spec,
              List.cons.sizeOf_spec] at hsz
            omega)).2 _ (le_refl _) _ _ _ _ _ h)
      | (cases h <;> rfl)
      | (have hp := applyMajorEffectToSlot_player _ _ _ _ _ _ h
         exact congrArg PlayerState.fate hp)
  · intro es hsz s mid ev s' ev' h
    cases es with
    | nil =>
        unfold applyMajorEffectSeq at h
        cases h; rfl
    | cons e rest =>
        unfold applyMajorEffectSeq at h
        obtain ⟨⟨st1, ev1⟩, heq, h⟩ := exceptBindOk _ _ _ h
        simp only [] at h
        split at h
        · cases h
          exact (IH _ (by
            simp only [List.cons.sizeOf_spec] at hsz
            omega)).1 e (le_refl _) _ _ _ _ _ heq
        · exact ((IH _ (by
              simp only [List.cons.sizeOf_spec] at hsz
              omega)).2 rest (le_refl _) _ _ _ _ _ h).trans
            ((IH _ (by
              simp only [List.cons.sizeOf_spec] at hsz
              omega)).1 e (le_refl _) _ _ _ _ _ heq)

theorem applyMajorEffect_fate (s : RunState) (mid : MajorId)
    (e : EffectNode) (ev : List GameEvent) (s' : RunState)
    (ev' : List GameEvent)
    (h : applyMajorEffect s mid e ev = .ok (s', ev')) :
    s'.player.fate = s.player.fate :=
  (applyMajorEffect_fate_rec (sizeOf e)).1 e (le_refl _) s mid ev s' ev' h

theorem addFate_fate (s : RunState) (d : Int) (ev : List GameEvent) :
    (addFate s d ev).1.player.fate = clamp (s.player.fate + d) 0 s.fateCap := by
  unfold addFate
  simp only []
  split
  · rfl
  · rename_i hc
    push_neg at hc
    simp only
    omega

theorem completeAfterFate_fate (content : LoadedContent) (st : RunState)
    (ev : List GameEvent) (s' : RunState) (ev' : List GameEvent)
    (h : completeAfterFate content st ev = .ok (s', ev')) :
    s'.player.fate = st.player.fate := by
  unfold completeAfterFate at h
  try simp only [clearPendingResolution] at h
  repeat' split at h
  all_goals first
    | (cases h <;> rfl)
    | (obtain ⟨sh, hb, h2⟩ := exceptBindOk _ _ _ h
       cases sh with
       | none => cases h2; rfl
       | some eff =>
           have hf := applyMajorEffect_fate _ _ _ _ _ _ h2
           exact hf)

theorem completeViaPair (content : LoadedContent)
    (p : RunState × List GameEvent) (s' : RunState) (ev' : List GameEvent)
    (h : (match p with
          | (st, e) => completeAfterFate content st e) = .ok (s', ev')) :
    s'.player.fate = p.1.player.fate := by
  obtain ⟨st, e⟩ := p
  exact completeAfterFate_fate _ _ _ _ _ h

theorem completeResolvedCard_fate (content : LoadedContent) (s : RunState)
    (ev : List GameEvent) (i : Nat) (cid : CardId) (orient : Orientation)
    (disc : Bool) (s' : RunState) (ev' : List GameEvent)
    (h : completeResolvedCard content s ev i cid orient disc =
      .ok (s', ev')) :
    s'.player.fate =
      if orient = .reversed then clamp (s.player.fate + 1) 0 s.fateCap
      else s.player.fate := by
  unfold completeResolvedCard at h
  simp only [] at h
  have hv := completeViaPair _ _ _ _ h
  rw [hv]
  by_cases horient : orient = Orientation.reversed
  · rw [if_pos horient, if_pos horient, addFate_fate]
    split <;> rfl
  · rw [if_neg horient, if_neg horient]
    split <;> rfl

theorem addGold_fate (s : RunState) (d : Int) (ev : List GameEvent) :
    (addGold s d ev).1.player.fate = s.player.fate := by
  unfold addGold
  simp only []
  split <;> rfl

theorem applyHeal_fate (s : RunState) (a : Int) (ev : List GameEvent) :
    (applyHeal s a ev).1.player.fate = s.player.fate := by
  unfold applyHeal
  simp only []
  split_ifs <;> rfl

theorem uprightNumberedResolution_fate (content : LoadedContent)
    (s : RunState) (ev : List GameEvent) (i : Nat) (cid : CardId)
    (b : Bool) (s' : RunState) (ev' : List GameEvent)
    (h : uprightNumberedResolution content s ev i cid =
      .ok (b, s', ev')) :
    s'.player.fate = s.player.fate := by
  unfold uprightNumberedResolution at h
  simp only [] at h
  split at h
  · cases h; rfl
  · split at h
    · -- pentacles
      rcases hg : addGold s
        (computeMinorNumericValue (getCard s cid).rank) ev with ⟨st1, ev1⟩
      rw [hg] at h
      simp only [] at h
      obtain ⟨⟨st2, ev2⟩, hc, h2⟩ := exceptBindOk _ _ _ h
      simp only [] at h2
      cases h2
      have hf := completeResolvedCard_fate _ _ _ _ _ _ _ _ _ hc
      rw [if_neg (by simp)] at hf
      rw [hf]
      have hga := congrArg
        (fun p : RunState × List GameEvent => p.1.player.fate) hg
      simp only at hga
      rw [← hga, addGold_fate]
    · split at h
      · -- cups heal
        rcases hg : applyHeal s
          (computeMinorNumericValue (getCard s cid).rank) ev
          with ⟨st1, ev1⟩
        rw [hg] at h
        simp only [] at h
        obtain ⟨⟨st2, ev2⟩, hc, h2⟩ := exceptBindOk _ _ _ h
        simp only [] at h2
        cases h2
        have hf := completeResolvedCard_fate _ _ _ _ _ _ _ _ _ hc
        rw [if_neg (by simp)] at hf
        rw [hf]
        have hga := congrArg
          (fun p : RunState × List GameEvent => p.1.player.fate) hg
        simp only at hga
        rw [← hga, applyHeal_fate]
      · split at h
        · -- wands
          obtain ⟨⟨st2, ev2⟩, hc, h2⟩ := exceptBindOk _ _ _ h
          simp only [] at h2
          cases h2
          have hf := completeResolvedCard_fate _ _ _ _ _ _ _ _ _ hc
          rw [if_neg (by simp)] at hf
          rw [hf]
        · split at h
          · -- swords
            split at h
            · obtain ⟨⟨st2, ev2⟩, hc, h2⟩ := exceptBindOk _ _ _ h
              simp only [] at h2
              cases h2
              have hf := completeResolvedCard_fate _ _ _ _ _ _ _ _ _ hc
              rw [if_neg (by simp)] at hf
              rw [hf]
              try rfl
            · obtain ⟨⟨st2, ev2⟩, hc, h2⟩ := exceptBindOk _ _ _ h
              simp only [] at h2
              cases h2
              have hf := completeResolvedCard_fate _ _ _ _ _ _ _ _ _ hc
              rw [if_neg (by simp)] at hf
              rw [hf]
              try rfl
          · cases h

theorem resolvePending_upright_numbered (content : LoadedContent)
    (s : RunState) (ev : List GameEvent) (i : Nat) (cid : CardId)
    (v : Int)
    (hpend : s.debug.pendingResolution = some ⟨i, cid⟩)
    (hslot : s.room.slotAt i = some cid)
    (hrank : (getCard s cid).rank = .number v)
    (heff : computeEffectiveOrientation s i (getCard s cid) = .upright) :
    resolvePendingNoChoice content s ev =
      uprightNumberedResolution content s ev i cid := by
  unfold resolvePendingNoChoice uprightNumberedResolution
  simp only [hpend]
  simp only [hslot]
  simp only [hrank, heff]
  simp [hrank]

/-- C6: for a numbered minor pending resolution in a boss room:
without a cleanse its effective orientation is reversed (boss
corruption); with a pending cleanse it is upright, the resolution
equals the upright suit dispatch and grants no Fate; and
`completeResolvedCard` changes Fate (by a clamped +1) exactly when the
effective orientation at the instant of resolution is reversed. -/
theorem c6_boss_cleanse_resolution
    (content : LoadedContent) (s : RunState) (ev : List GameEvent)
    (i : Nat) (cid : CardId) (v : Int)
    (hboss : s.floor.bossMode = true)
    (hpend : s.debug.pendingResolution = some ⟨i, cid⟩)
    (hslot : s.room.slotAt i = some cid)
    (hrank : (getCard s cid).rank = .number v) :
    (s.room.cleanseAt i = false →
      computeEffectiveOrientation s i (getCard s cid) = .reversed) ∧
    (s.room.cleanseAt i = true →
      computeEffectiveOrientation s i (getCard s cid) = .upright ∧
      resolvePendingNoChoice content s ev =
        uprightNumberedResolution content s ev i cid ∧
      (∀ b s' ev', resolvePendingNoChoice content s ev = .ok (b, s', ev') →
        s'.player.fate = s.player.fate)) ∧
    (∀ st ev2 j c orient d s' ev',
      completeResolvedCard content st ev2 j c orient d = .ok (s', ev') →
        s'.player.fate = (if orient = .reversed
          then clamp (st.player.fate + 1) 0 st.fateCap
          else st.player.fate)) := by
  refine ⟨?_, ?_, ?_⟩
  · intro hcl
    unfold computeEffectiveOrientation
    simp [hboss, hcl, isNumbered, hrank]
  · intro hcl
    have heff : computeEffectiveOrientation s i (getCard s cid) =
        .upright := by
      unfold computeEffectiveOrientation
      simp [hcl]
    refine ⟨heff,
      resolvePending_upright_numbered content s ev i cid v hpend hslot
        hrank heff, ?_⟩
    intro b s' ev' h
    rw [resolvePending_upright_numbered content s ev i cid v hpend hslot
      hrank heff] at h
    exact uprightNumberedResolution_fate _ _ _ _ _ _ _ _ h
  · intro st ev2 j c orient d s' ev' h
    exact completeResolvedCard_fate _ _ _ _ _ _ _ _ _ h

theorem c6_boss_cleanse_resolution_witness :
    (c6State.room.cleanseAt 0 = false →
      computeEffectiveOrientation c6State 0 (getCard c6State c6Cid) =
        .reversed) ∧
    (c6State.room.cleanseAt 0 = true →
      computeEffectiveOrientation c6State 0 (getCard c6State c6Cid) =
        .upright ∧
      resolvePendingNoChoice noopContent c6State [] =
        uprightNumberedResolution noopContent c6State [] 0 c6Cid ∧
      (∀ b s' ev',
        resolvePendingNoChoice noopContent c6State [] =
          .ok (b, s', ev') →
        s'.player.fate = c6State.player.fate)) ∧
    (∀ st ev2 j c orient d s' ev',
      completeResolvedCard noopContent st ev2 j c orient d =
        .ok (s', ev') →
        s'.player.fate = (if orient = .reversed
          then clamp (st.player.fate + 1) 0 st.fateCap
          else st.player.fate)) :=
  c6_boss_cleanse_resolution noopContent c6State [] 0 c6Cid 2
    rfl rfl rfl rfl


/-! ## Claim C1: the card-conservation ledger -/

/-- Ledger occurrence count of a card id over the non-discard
containers: room slots, minor deck, boss deck, equipment. -/
def ledgerCount (s : RunState) (id : CardId) : Nat :=
  s.room.slots.count (some id) + s.decks.minorDeck.count id +
    (s.floor.bossDeck.getD []).count id + (equipIds s).count id

/-- The registry is exactly the 56 ids, each mapped to a card with its
own id, suit and rank (orientation free). -/
def registryOk (s : RunState) : Bool :=
  decide (s.decks.minors.map Prod.fst = allCardIds) &&
    s.decks.minors.all fun p =>
      decide (p.2.id = p.1) && decide (p.2.suit = p.1.suit) &&
        decide (p.2.rank = p.1.rank)

/-- Equipped ids have their defining suits: weapon swords, armor cups,
spell wands. -/
def equipSuitsOk (s : RunState) : Bool :=
  (match s.player.weapon with
   | none => true
   | some w => decide (w.cardId.suit = .swords)) &&
  (match s.player.armor with
   | none => true
   | some a => decide (a.cardId.suit = .cups)) &&
  (match s.player.spell with
   | none => true
   | some p => decide (p.cardId.suit = .wands))

/-- One engine step's ledger obligations: the floor discard only grows,
the ledger count of any still-undiscarded id does not increase, and the
registry, slot count and equipment suit-typing carry over. -/
def Mono (s s' : RunState) : Prop :=
  (∀ id : CardId, s.floor.floorDiscard.contains id = true →
    s'.floor.floorDiscard.contains id = true) ∧
  (∀ id : CardId, s'.floor.floorDiscard.contains id = false →
    ledgerCount s' id ≤ ledgerCount s id) ∧
  (registryOk s = true → registryOk s' = true) ∧
  s'.room.slots.length = s.room.slots.length ∧
  (registryOk s = true → equipSuitsOk s = true → equipSuitsOk s' = true)

theorem bool_contra {b : Bool} (h1 : b = true) (h2 : b = false) :
    False := by
  rw [h1] at h2
  cases h2

theorem mono_refl (s : RunState) : Mono s s :=
  ⟨fun _ h => h, fun _ _ => le_refl _, fun h => h, rfl, fun _ h => h⟩

theorem mono_trans {s₁ s₂ s₃ : RunState} (h12 : Mono s₁ s₂)
    (h23 : Mono s₂ s₃) : Mono s₁ s₃ := by
  obtain ⟨d12, c12, r12, l12, e12⟩ := h12
  obtain ⟨d23, c23, r23, l23, e23⟩ := h23
  refine ⟨fun id h => d23 id (d12 id h), ?_, fun h => r23 (r12 h),
    l23.trans l12, fun hr h => e23 (r12 hr) (e12 hr h)⟩
  intro id h3
  by_cases h2 : s₂.floor.floorDiscard.contains id = true
  · exact absurd (d23 id h2) (fun hx => bool_contra hx h3)
  · exact (c23 id h3).trans (c12 id (by
      cases hval : s₂.floor.floorDiscard.contains id
      · rfl
      · exact absurd hval h2))

theorem mono_of_eq {s s' : RunState}
    (hd : s'.floor.floorDiscard = s.floor.floorDiscard)
    (hs : s'.room.slots = s.room.slots)
    (hm : s'.decks.minorDeck = s.decks.minorDeck)
    (hb : s'.floor.bossDeck = s.floor.bossDeck)
    (hr : s'.decks.minors = s.decks.minors)
    (hw : s'.player.weapon = s.player.weapon)
    (ha : s'.player.armor = s.player.armor)
    (hp : s'.player.spell = s.player.spell) : Mono s s' := by
  have hl : ∀ id, ledgerCount s' id = ledgerCount s id := by
    intro id
    unfold ledgerCount equipIds
    rw [hs, hm, hb, hw, ha, hp]
  refine ⟨fun id h => hd ▸ h, fun id _ => (hl id).le, ?_, by rw [hs], ?_⟩
  · intro h
    unfold registryOk at h ⊢
    rw [hr]
    exact h
  · intro _ h
    unfold equipSuitsOk at h ⊢
    rw [hw, ha, hp]
    exact h

/-- If the slot index holds a card, the index is in range and the list
entry is that card. -/
theorem slotAt_some {s : RunState} {t : Nat} {cid : CardId}
    (h : s.room.slotAt t = some cid) :
    ∃ ht : t < s.room.slots.length, s.room.slots[t] = some cid := by
  unfold RoomState.slotAt at h
  rw [Option.join_eq_some] at h
  rw [List.get?_eq_some] at h
  obtain ⟨ht, hv⟩ := h
  rw [List.get_eq_getElem] at hv
  exact ⟨ht, hv⟩

/-- Ledger bookkeeping for overwriting a room slot. -/
theorem ledger_setSlot (s : RunState) (t : Nat) (v : Option CardId)
    (ht : t < s.room.slots.length) (id : CardId) :
    ledgerCount { s with room := { s.room with
        slots := s.room.slots.set t v } } id +
      (if s.room.slots[t] = some id then 1 else 0) =
    ledgerCount s id + (if v = some id then 1 else 0) := by
  have hset := List.count_set v (some id) s.room.slots t ht
  have hpos : s.room.slots[t] = some id →
      1 ≤ s.room.slots.count (some id) := by
    intro hx
    exact List.count_pos_iff.mpr (hx ▸ s.room.slots.getElem_mem ht)
  unfold ledgerCount equipIds
  simp only [beq_iff_eq] at hset
  by_cases h1 : s.room.slots[t] = some id <;>
    by_cases h2 : v = some id <;>
      simp only [h1, h2, if_pos, if_neg, if_true, if_false] at hset ⊢ <;>
        first
          | (have hkp := hpos h1; omega)
          | omega

/-- Ledger bookkeeping for `bottomToActiveDeck`: the bottomed id gains
one occurrence (in the active deck); nothing else changes. -/
theorem bottom_ledger {s : RunState} {cid : CardId}
    {ev ev₁ : List GameEvent} {s₁ : RunState}
    (h : bottomToActiveDeck s cid ev = .ok (s₁, ev₁)) :
    (∀ id, ledgerCount s₁ id =
      ledgerCount s id + (if cid = id then 1 else 0)) ∧
    s₁.floor.floorDiscard = s.floor.floorDiscard ∧
    s₁.decks.minors = s.decks.minors ∧
    s₁.room = s.room ∧ s₁.player = s.player := by
  unfold bottomToActiveDeck at h
  split at h
  · cases hb : s.floor.bossDeck with
    | none => rw [hb] at h; cases h
    | some d =>
        rw [hb] at h
        cases h
        refine ⟨?_, rfl, rfl, rfl, rfl⟩
        intro id
        unfold ledgerCount equipIds
        simp only [hb, Option.getD_some, List.count_append]
        by_cases hc : cid = id <;>
          simp [hc, List.count_cons, List.count_nil] <;> omega
  · cases h
    refine ⟨?_, rfl, rfl, rfl, rfl⟩
    intro id
    unfold ledgerCount equipIds
    simp only [List.count_append]
    by_cases hc : cid = id <;>
      simp [hc, List.count_cons, List.count_nil] <;> omega

/-- Ledger bookkeeping for `drawFromMinorDeck`: the drawn id loses one
occurrence (leaving the active deck); nothing else changes. -/
theorem draw_ledger {s : RunState} {c : CardId} {s₂ : RunState}
    (h : drawFromMinorDeck s = .ok (c, s₂)) :
    (∀ id, ledgerCount s id =
      ledgerCount s₂ id + (if c = id then 1 else 0)) ∧
    s₂.floor.floorDiscard = s.floor.floorDiscard ∧
    s₂.decks.minors = s.decks.minors ∧
    s₂.room = s.room ∧ s₂.player = s.player := by
  unfold drawFromMinorDeck at h
  split at h
  · split at h
    · cases h
      rename_i hb
      refine ⟨?_, rfl, rfl, rfl, rfl⟩
      intro id
      unfold ledgerCount equipIds
      simp only [hb, Option.getD_some]
      by_cases hc : c = id <;>
        simp [hc, List.count_cons] <;> omega
    · cases h
  · split at h
    · cases h
      rename_i hd
      refine ⟨?_, rfl, rfl, rfl, rfl⟩
      intro id
      unfold ledgerCount equipIds
      simp only [hd]
      by_cases hc : c = id <;>
        simp [hc, List.count_cons] <;> omega
    · cases h


/-- A list of length four is a four-element literal. -/
theorem list_len4 {α : Type} (l : List α) (h : l.length = 4) :
    ∃ a b c d, l = [a, b, c, d] := by
  cases l with
  | nil => cases h
  | cons a t1 =>
      cases t1 with
      | nil => cases h
      | cons b t2 =>
          cases t2 with
          | nil => cases h
          | cons c t3 =>
              cases t3 with
              | nil => cases h
              | cons d t4 =>
                  cases t4 with
                  | nil => exact ⟨a, b, c, d, rfl⟩
                  | cons e t5 => simp at h

/-- The first components of a keyed merge sort over a tagged index list
are a permutation of the indices. -/
theorem mergeSort_fst_perm {β : Type} (le : Nat × β → Nat × β → Bool)
    (l : List Nat) (f : Nat → Nat × β) (hf : ∀ i, (f i).1 = i) :
    (((l.map f).mergeSort le).map Prod.fst).Perm l := by
  have h1 : (((l.map f).mergeSort le).map Prod.fst).Perm
      ((l.map f).map Prod.fst) :=
    ((l.map f).mergeSort_perm le).map Prod.fst
  refine h1.trans ?_
  rw [List.map_map]
  have h2 : (Prod.fst ∘ f) = id := by
    funext i
    simp [hf i]
  rw [h2, List.map_id]

/-- Mono for any state whose slots are a permutation re-indexing of the
current slots and whose ledger containers are otherwise unchanged. -/
theorem reorder_mono (s s' : RunState) (order : List Nat)
    (hlen : s.room.slots.length = 4)
    (hperm : order.Perm [0, 1, 2, 3])
    (hslots : s'.room.slots = order.map fun i => s.room.slotAt i)
    (hd : s'.floor.floorDiscard = s.floor.floorDiscard)
    (hm : s'.decks.minorDeck = s.decks.minorDeck)
    (hb : s'.floor.bossDeck = s.floor.bossDeck)
    (hr : s'.decks.minors = s.decks.minors)
    (hw : s'.player.weapon = s.player.weapon)
    (ha : s'.player.armor = s.player.armor)
    (hp : s'.player.spell = s.player.spell) : Mono s s' := by
  have hcount : ∀ v : Option CardId,
      (order.map fun i => s.room.slotAt i).count v =
        s.room.slots.count v := by
    intro v
    obtain ⟨a, b, c, d, hL⟩ := list_len4 s.room.slots hlen
    have h2 : ([0, 1, 2, 3].map fun i => s.room.slotAt i) =
        s.room.slots := by
      unfold RoomState.slotAt
      rw [hL]
      rfl
    have h1 := (hperm.map fun i => s.room.slotAt i).countP_eq
      (fun x => x == v)
    rw [h2] at h1
    exact h1
  have hlc : ∀ id, ledgerCount s' id = ledgerCount s id := by
    intro id
    unfold ledgerCount equipIds
    rw [hslots, hm, hb, hw, ha, hp, hcount]
  refine ⟨fun id hx => hd ▸ hx, fun id _ => (hlc id).le, ?_, ?_, ?_⟩
  · intro hx
    unfold registryOk at hx ⊢
    rw [hr]
    exact hx
  · rw [hslots, List.length_map, hperm.length_eq, hlen]
    rfl
  · intro _ hx
    unfold equipSuitsOk at hx ⊢
    rw [hw, ha, hp]
    exact hx

theorem registry_congr {s s' : RunState}
    (h : s'.decks.minors = s.decks.minors)
    (hx : registryOk s = true) : registryOk s' = true := by
  unfold registryOk at hx ⊢
  rw [h]
  exact hx

theorem equipSuits_congr {s s' : RunState}
    (h : s'.player = s.player)
    (hx : equipSuitsOk s = true) : equipSuitsOk s' = true := by
  unfold equipSuitsOk at hx ⊢
  rw [h]
  exact hx

theorem applyMajorEffectToSlot_mono (s : RunState) (e : EffectNode)
    (t : Nat) (ev : List GameEvent) (s' : RunState)
    (ev' : List GameEvent)
    (h : applyMajorEffectToSlot s e t ev = .ok (s', ev')) :
    Mono s s' := by
  unfold applyMajorEffectToSlot at h
  cases hslot : s.room.slotAt t with
  | none => simp only [hslot] at h; cases h; exact mono_refl s
  | some cid =>
      simp only [hslot] at h
      split at h
      · split at h <;>
          (cases h; exact mono_of_eq rfl rfl rfl rfl rfl rfl rfl rfl)
      · -- REROLL_REVEALED
        obtain ⟨⟨s1, ev1⟩, h1, h2⟩ := exceptBindOk _ _ _ h
        dsimp only at h2
        obtain ⟨⟨c2, s2⟩, h3, h4⟩ := exceptBindOk _ _ _ h2
        dsimp only at h4
        cases h4
        obtain ⟨hl1, hd1, hm1, hr1, hp1⟩ := bottom_ledger h1
        obtain ⟨hl3, hd3, hm3, hr3, hp3⟩ := draw_ledger h3
        have hd2 : s2.floor.floorDiscard = s.floor.floorDiscard := by
          rw [hd3]
          exact hd1
        have hmin2 : s2.decks.minors = s.decks.minors := by
          rw [hm3]
          exact hm1
        have hpl2 : s2.player = s.player := by
          rw [hp3]
          exact hp1
        have hslots2 : s2.room.slots = s.room.slots := by
          rw [hr3]
          show s1.room.slots = s.room.slots
          rw [hr1]
        have hsa2 : s2.room.slotAt t = some cid := by
          unfold RoomState.slotAt at hslot ⊢
          rw [hslots2]
          exact hslot
        obtain ⟨ht2, hEl2⟩ := slotAt_some hsa2
        refine ⟨?_, ?_, ?_, ?_, ?_⟩
        · intro id hx
          show s2.floor.floorDiscard.contains id = true
          rw [hd2]
          exact hx
        · intro id _
          have hss := ledger_setSlot s2 t (some c2) ht2 id
          rw [hEl2] at hss
          have e3 : ledgerCount s1 id =
              ledgerCount s2 id + (if c2 = id then 1 else 0) := hl3 id
          have e0 := hl1 id
          by_cases hc2 : c2 = id <;> by_cases hcid : cid = id <;>
            simp only [hc2, hcid, Option.some_inj, if_pos, if_neg,
              if_true, if_false] at hss e3 e0 ⊢ <;>
            omega
        · intro hx
          exact registry_congr hmin2 hx
        · show (s2.room.slots.set t (some c2)).length =
            s.room.slots.length
          rw [List.length_set, hslots2]
        · intro _ hx
          exact equipSuits_congr hpl2 hx
      · -- EXILE_REPLACE_REVEALED
        obtain ⟨⟨c2, s2⟩, h3, h4⟩ := exceptBindOk _ _ _ h
        dsimp only at h4
        cases h4
        obtain ⟨hl3, hd3, hm3, hr3, hp3⟩ := draw_ledger h3
        have hd2 : s2.floor.floorDiscard =
            s.floor.floorDiscard ++ [cid] := by
          rw [hd3]
          rfl
        have hmin2 : s2.decks.minors = s.decks.minors := by
          rw [hm3]
          rfl
        have hpl2 : s2.player = s.player := by
          rw [hp3]
          rfl
        have hslots2 : s2.room.slots = s.room.slots := by
          rw [hr3]
          rfl
        have hsa2 : s2.room.slotAt t = some cid := by
          unfold RoomState.slotAt at hslot ⊢
          rw [hslots2]
          exact hslot
        obtain ⟨ht2, hEl2⟩ := slotAt_some hsa2
        refine ⟨?_, ?_, ?_, ?_, ?_⟩
        · intro id hx
          show s2.floor.floorDiscard.contains id = true
          rw [hd2]
          have hmem : id ∈ s.floor.floorDiscard := by
            simpa using hx
          simp [List.mem_append, hmem]
        · intro id _
          have hss := ledger_setSlot s2 t (some c2) ht2 id
          rw [hEl2] at hss
          have e3 : ledgerCount s id =
              ledgerCount s2 id + (if c2 = id then 1 else 0) := hl3 id
          by_cases hc2 : c2 = id <;> by_cases hcid : cid = id <;>
            simp only [hc2, hcid, Option.some_inj, if_pos, if_neg,
              if_true, if_false] at hss e3 ⊢ <;>
            omega
        · intro hx
          exact registry_congr hmin2 hx
        · show (s2.room.slots.set t (some c2)).length =
            s.room.slots.length
          rw [List.length_set, hslots2]
        · intro _ hx
          exact equipSuits_congr hpl2 hx
      · cases h
        exact mono_refl s

set_option maxHeartbeats 4000000 in
theorem applyMajorEffect_mono_rec (n : Nat) :
    (∀ e : EffectNode, sizeOf e ≤ n → ∀ s mid ev s' ev',
      s.room.slots.length = 4 →
      applyMajorEffect s mid e ev = .ok (s', ev') →
      Mono s s') ∧
    (∀ es : List EffectNode, sizeOf es ≤ n → ∀ s mid ev s' ev',
      s.room.slots.length = 4 →
      applyMajorEffectSeq s mid es ev = .ok (s', ev') →
      Mono s s') := by
  induction n using Nat.strong_induction_on with
  | _ n IH =>
  constructor
  · intro e hsz s mid ev s' ev' hlen h
    obtain ⟨ty, effs, pk0, opts, pif, pthen, pelse, sel, nn, cr, fa, sc,
      wrmv, ocv, rccfv, pkeyv, pvalv, bosv⟩ := e
    unfold applyMajorEffect at h
    try simp only [beginMajorEffectPrompt, EffectNode.type,
      EffectNode.promptKey, EffectNode.options, EffectNode.bargainOptions,
      EffectNode.selector] at h
    repeat' split at h
    all_goals first
      | (exact (IH _ (by
            simp only [EffectNode.mk.sizeOf_spec, Option.some.sizeOf_spec,
              List.cons.sizeOf_spec] at hsz
            omega)).1 _ (le_refl _) _ _ _ _ _ hlen h)
      | (exact (IH _ (by
            simp only [EffectNode.mk.sizeOf_spec, Option.some.sizeOf_spec,
              List.cons.sizeOf_spec] at hsz
            omega)).2 _ (le_refl _) _ _ _ _ _ hlen h)
      | (cases h <;>
          exact mono_of_eq rfl rfl rfl rfl rfl rfl rfl rfl)
      | (have hp := applyMajorEffectToSlot_mono _ _ _ _ _ _ h
         exact mono_trans (mono_of_eq rfl rfl rfl rfl rfl rfl rfl rfl) hp)
      | (cases h
         refine reorder_mono _ _ _ hlen ?_ rfl rfl rfl rfl rfl rfl rfl rfl
         exact mergeSort_fst_perm _ _ _ fun i => by
           cases s.room.slotAt i <;> rfl)
  · intro es hsz s mid ev s' ev' hlen h
    cases es with
    | nil =>
        unfold applyMajorEffectSeq at h
        cases h
        exact mono_refl s
    | cons e rest =>
        unfold applyMajorEffectSeq at h
        obtain ⟨⟨st1, ev1⟩, heq, h⟩ := exceptBindOk _ _ _ h
        simp only [] at h
        have hm1 : Mono s st1 := (IH _ (by
          simp only [List.cons.sizeOf_spec] at hsz
          omega)).1 e (le_refl _) _ _ _ _ _ hlen heq
        split at h
        · cases h
          exact hm1
        · have hlen1 : st1.room.slots.length = 4 := by
            rw [hm1.2.2.2.1, hlen]
          exact mono_trans hm1 ((IH _ (by
            simp only [List.cons.sizeOf_spec] at hsz
            omega)).2 rest (le_refl _) _ _ _ _ _ hlen1 h)

theorem applyMajorEffect_mono (s : RunState) (mid : MajorId)
    (e : EffectNode) (ev : List GameEvent) (s' : RunState)
    (ev' : List GameEvent) (hlen : s.room.slots.length = 4)
    (h : applyMajorEffect s mid e ev = .ok (s', ev')) :
    Mono s s' :=
  (applyMajorEffect_mono_rec (sizeOf e)).1 e (le_refl _) s mid ev s' ev'
    hlen h


/-- Clearing any slot can only lower a slot-occurrence count. -/
theorem count_set_none_le (l : List (Option CardId)) (i : Nat)
    (id : CardId) :
    (l.set i none).count (some id) ≤ l.count (some id) := by
  induction l generalizing i with
  | nil => simp
  | cons a t ih =>
      cases i with
      | zero =>
          have h0 : ((none : Option CardId) == some id) = false := rfl
          simp only [List.set, List.count_cons, h0, if_false,
            Bool.false_eq_true]
          split <;> omega
      | succ n =>
          simp only [List.set, List.count_cons]
          have := ih n
          omega

theorem contains_append_l (l m : List CardId) (id : CardId)
    (h : l.contains id = true) : (l ++ m).contains id = true := by
  have h1 : id ∈ l := List.elem_iff.mp h
  exact List.elem_iff.mpr (List.mem_append_left m h1)

theorem addFate_mono (s : RunState) (d : Int) (ev : List GameEvent) :
    Mono s (addFate s d ev).1 ∧
      (addFate s d ev).1.room.slots = s.room.slots := by
  cases haf : addFate s d ev with
  | mk st ev2 =>
      unfold addFate at haf
      simp only [] at haf
      split at haf <;>
        (cases haf
         exact ⟨mono_of_eq rfl rfl rfl rfl rfl rfl rfl rfl, rfl⟩)

theorem addGold_mono (s : RunState) (d : Int) (ev : List GameEvent) :
    Mono s (addGold s d ev).1 ∧
      (addGold s d ev).1.room.slots = s.room.slots := by
  cases haf : addGold s d ev with
  | mk st ev2 =>
      unfold addGold at haf
      simp only [] at haf
      split at haf <;>
        (cases haf
         exact ⟨mono_of_eq rfl rfl rfl rfl rfl rfl rfl rfl, rfl⟩)

theorem applyDamage_mono (s : RunState) (a : Int)
    (ev : List GameEvent) :
    Mono s (applyDamage s a ev).1 ∧
      (applyDamage s a ev).1.room.slots = s.room.slots := by
  cases haf : applyDamage s a ev with
  | mk st ev2 =>
      unfold applyDamage applyArmorIfAny at haf
      simp only [] at haf
      repeat' split at haf
      all_goals cases haf
      all_goals first
        | exact ⟨mono_of_eq rfl rfl rfl rfl rfl rfl rfl rfl, rfl⟩
        | (rename_i harm heqarm _
           refine ⟨⟨?_, ?_, ?_, rfl, ?_⟩, rfl⟩
           · intro id hx
             exact contains_append_l _ _ _ hx
           · intro id _
             unfold ledgerCount equipIds
             rw [heqarm]
             simp only [List.count_append]
             simp
             try omega
           · intro hx
             exact registry_congr rfl hx
           · intro _ hx
             unfold equipSuitsOk at hx ⊢
             simp only [Bool.and_eq_true] at hx ⊢
             exact ⟨⟨hx.1.1, trivial⟩, hx.2⟩)


theorem completeAfterFate_mono (content : LoadedContent) (s : RunState)
    (ev : List GameEvent) (s' : RunState) (ev' : List GameEvent)
    (hlen : s.room.slots.length = 4)
    (h : completeAfterFate content s ev = .ok (s', ev')) : Mono s s' := by
  unfold completeAfterFate at h
  try simp only [clearPendingResolution] at h
  repeat' split at h
  all_goals first
    | (cases h <;> exact mono_of_eq rfl rfl rfl rfl rfl rfl rfl rfl)
    | (obtain ⟨sh, hb, h2⟩ := exceptBindOk _ _ _ h
       cases sh with
       | none =>
           cases h2
           exact mono_of_eq rfl rfl rfl rfl rfl rfl rfl rfl
       | some eff =>
           have hp := applyMajorEffect_mono _ _ _ _ _ _ (by exact hlen) h2
           exact mono_trans (mono_of_eq rfl rfl rfl rfl rfl rfl rfl rfl) hp)

theorem completeViaPair_mono (content : LoadedContent)
    (p : RunState × List GameEvent) (s' : RunState) (ev' : List GameEvent)
    (h : (match p with
          | (st, e) => completeAfterFate content st e) = .ok (s', ev'))
    (hlen : p.1.room.slots.length = 4) : Mono p.1 s' := by
  obtain ⟨st, e⟩ := p
  exact completeAfterFate_mono content st e s' ev' hlen h

/-- Clearing a slot that holds `cid` lowers the ledger count of `cid` by
one and keeps every other count. -/
theorem ledger_clearSlot (s : RunState) (t : Nat) (cid : CardId)
    (ht : t < s.room.slots.length)
    (hEl : s.room.slots[t] = some cid) (id : CardId) :
    ledgerCount { s with room := { s.room with
        slots := s.room.slots.set t none } } id +
      (if cid = id then 1 else 0) = ledgerCount s id := by
  have h1 := ledger_setSlot s t none ht id
  rw [hEl] at h1
  rw [if_neg (show ¬((none : Option CardId) = some id) by simp)] at h1
  by_cases hc : cid = id
  · rw [if_pos hc]
    rw [if_pos (by rw [hc])] at h1
    omega
  · rw [if_neg hc]
    rw [if_neg (by simp [hc])] at h1
    omega

/-- Net ledger obligations of `completeResolvedCard` on a slot holding
`cid`: one occurrence of `cid` is removed (the cleared slot), everything
else obeys the step obligations. -/
theorem completeResolvedCard_net (content : LoadedContent)
    (st : RunState) (ev : List GameEvent) (i : Nat) (cid : CardId)
    (orient : Orientation) (disc : Bool) (s' : RunState)
    (ev' : List GameEvent)
    (hlen : st.room.slots.length = 4)
    (hslot : st.room.slotAt i = some cid)
    (h : completeResolvedCard content st ev i cid orient disc =
      .ok (s', ev')) :
    (∀ id, st.floor.floorDiscard.contains id = true →
      s'.floor.floorDiscard.contains id = true) ∧
    (∀ id, s'.floor.floorDiscard.contains id = false →
      ledgerCount s' id + (if cid = id then 1 else 0) ≤
        ledgerCount st id) ∧
    (registryOk st = true → registryOk s' = true) ∧
    s'.room.slots.length = st.room.slots.length ∧
    (registryOk st = true → equipSuitsOk st = true →
      equipSuitsOk s' = true) := by
  obtain ⟨ht, hEl⟩ := slotAt_some hslot
  unfold completeResolvedCard at h
  simp only [] at h
  split at h <;> split at h <;>
    (have hvp := completeViaPair_mono content _ _ _ h (by
       first
         | (rw [(addFate_mono _ _ _).2]
            show (st.room.slots.set i none).length = 4
            rw [List.length_set]
            exact hlen)
         | (show (st.room.slots.set i none).length = 4
            rw [List.length_set]
            exact hlen))
     first
       | have hmono := mono_trans (addFate_mono _ _ _).1 hvp
       | have hmono := hvp
     refine ⟨?_, ?_, ?_, ?_, ?_⟩
     · intro id hx
       first
         | exact hmono.1 id (contains_append_l _ _ _ hx)
         | exact hmono.1 id hx
     · intro id hnd
       rw [← ledger_clearSlot st i cid ht hEl id]
       exact Nat.add_le_add_right (hmono.2.1 id hnd) _
     · intro hr
       exact hmono.2.2.1 (registry_congr rfl hr)
     · rw [hmono.2.2.2.1]
       show (st.room.slots.set i none).length = st.room.slots.length
       rw [List.length_set]
     · intro hr hs
       exact hmono.2.2.2.2 (registry_congr rfl hr)
         (equipSuits_congr rfl hs))

theorem completeResolvedCard_mono (content : LoadedContent)
    (st : RunState) (ev : List GameEvent) (i : Nat) (cid : CardId)
    (orient : Orientation) (disc : Bool) (s' : RunState)
    (ev' : List GameEvent)
    (hlen : st.room.slots.length = 4)
    (hslot : st.room.slotAt i = some cid)
    (h : completeResolvedCard content st ev i cid orient disc =
      .ok (s', ev')) : Mono st s' := by
  obtain ⟨h1, h2, h3, h4, h5⟩ :=
    completeResolvedCard_net content st ev i cid orient disc s' ev'
      hlen hslot h
  refine ⟨h1, ?_, h3, h4, h5⟩
  intro id hnd
  have := h2 id hnd
  omega


theorem addGold_pair (s : RunState) (d : Int) (ev : List GameEvent)
    (st : RunState) (e : List GameEvent)
    (h : addGold s d ev = (st, e)) :
    Mono s st ∧ st.room.slots = s.room.slots := by
  have hx := addGold_mono s d ev
  rw [h] at hx
  exact hx

theorem applyDamage_pair (s : RunState) (a : Int) (ev : List GameEvent)
    (st : RunState) (e : List GameEvent)
    (h : applyDamage s a ev = (st, e)) :
    Mono s st ∧ st.room.slots = s.room.slots := by
  have hx := applyDamage_mono s a ev
  rw [h] at hx
  exact hx

set_option maxRecDepth 10000

end FG
